import Mathlib

/-!
Dogecoin chain parameters: consensus-parameter tree, network profiles, registry.

A shallow embedding of `src/chainparams.cpp`.

* `Consensus::Params` objects live in a heap `α → Params α`; the links `pLeft` / `pRight`
  are optional addresses (`none` is `NULL`).
* `GetConsensus` is the recursive tree walk, with an explicit recursion budget (`fuel`):
  `none` means the budget ran out, `some p` is the returned pointer. `GetConsensusCall` is
  the same walk with the heap threaded through the calls.
* The three network profiles are built by `CMainParams`, `CTestNetParams`, `CRegTestParams`.
* The registry (`pCurrentParams`, `Params`, `SelectParams`) is explicit state passing.
-/

namespace Dogecoin

namespace Consensus

/-! ## Consensus parameters -/

/-- Enumeration `Consensus::DeploymentPos`, indexing `vDeployments`. -/
inductive DeploymentPos
  | DEPLOYMENT_TESTDUMMY
  | DEPLOYMENT_BIP34
  | DEPLOYMENT_BIP66
  | DEPLOYMENT_BIP65
  | DEPLOYMENT_CSV
  | DEPLOYMENT_SEGWIT
  deriving DecidableEq, Repr

/-- Struct `Consensus::BIP9Deployment`. -/
structure BIP9Deployment where
  bit : Int
  nStartTime : Int
  nTimeout : Int
  deriving DecidableEq, Repr

/-- Struct `Consensus::Params`: one rule set, with its two links. `α` is the type of
addresses of `Params` objects; a link is `none` when the pointer is `NULL`. -/
structure Params (α : Type) where
  hashGenesisBlock : Nat
  nSubsidyHalvingInterval : Int
  nMajorityEnforceBlockUpgrade : Int
  nMajorityRejectBlockOutdated : Int
  nMajorityWindow : Int
  BIP34Hash : Nat
  BIP65Height : Int
  BIP66Height : Int
  powLimit : Nat
  nPowTargetTimespan : Int
  nPowTargetSpacing : Int
  nCoinbaseMaturity : Nat
  fPowNoRetargeting : Bool
  fPowAllowMinDifficultyBlocks : Bool
  fPowAllowDigishieldMinDifficultyBlocks : Bool
  nRuleChangeActivationThreshold : Nat
  nMinerConfirmationWindow : Nat
  vDeployments : DeploymentPos → BIP9Deployment
  nMinimumChainWork : Nat
  defaultAssumeValid : Nat
  nAuxpowChainId : Int
  nAuxpowStartHeight : Int
  nBlockAfterAuxpowRewardThreshold : Int
  fStrictChainId : Bool
  fSimplifiedRewards : Bool
  fDigishieldDifficultyCalculation : Bool
  nHeightEffective : Nat
  pLeft : Option α
  pRight : Option α

end Consensus

/-- The largest `uint32_t`, `std::numeric_limits<uint32_t>::max()` = `0xFFFFFFFF`. -/
def UINT32_MAX : Nat := 0xFFFFFFFF

namespace Consensus

/-- `Consensus::Params::GetConsensus(nTargetHeight)` called on the object at address `this`.
The first argument bounds the recursion depth. -/
def Params.GetConsensus {α : Type} (heap : α → Consensus.Params α) : Nat → α → Nat → Option α
  | 0, _, _ => none
  | fuel + 1, this, nTargetHeight =>
    if hl : nTargetHeight < (heap this).nHeightEffective ∧ (heap this).pLeft.isSome then
      Params.GetConsensus heap fuel ((heap this).pLeft.get hl.2) nTargetHeight
    else if hr : nTargetHeight > (heap this).nHeightEffective ∧ (heap this).pRight.isSome then
      match Params.GetConsensus heap fuel ((heap this).pRight.get hr.2) nTargetHeight with
      | some pCandidate =>
        if (heap pCandidate).nHeightEffective ≤ nTargetHeight then some pCandidate
        else some this
      | none => none
    else
      some this

end Consensus

open Consensus (DeploymentPos BIP9Deployment)
open Consensus.Params (GetConsensus)

/-- `Consensus::Params::GetConsensus(nTargetHeight)` as a call on the program state: the
heap the call leaves behind together with the returned pointer. Each recursive call hands
its heap back to the caller, which goes on in that heap (the candidate's activation height
is read after the call); the method is `const` and its body assigns nothing, so every
`return` hands back the heap it has. The first argument bounds the recursion depth. -/
def GetConsensusCall {α : Type} (heap : α → Consensus.Params α) :
    Nat → α → Nat → Option ((α → Consensus.Params α) × α)
  | 0, _, _ => none
  | fuel + 1, this, nTargetHeight =>
    if hl : nTargetHeight < (heap this).nHeightEffective ∧ (heap this).pLeft.isSome then
      GetConsensusCall heap fuel ((heap this).pLeft.get hl.2) nTargetHeight
    else if hr : nTargetHeight > (heap this).nHeightEffective ∧ (heap this).pRight.isSome then
      match GetConsensusCall heap fuel ((heap this).pRight.get hr.2) nTargetHeight with
      | some (heap1, pCandidate) =>
        if (heap1 pCandidate).nHeightEffective ≤ nTargetHeight then some (heap1, pCandidate)
        else some (heap1, this)
      | none => none
    else
      some (heap, this)

/-- `TreeAt heap n ns`: the objects reachable from `n` through `pLeft` / `pRight` form a
finite binary tree whose nodes are exactly the addresses `ns`, each occurring once: no
object is its own ancestor and no object is shared between two branches. -/
inductive TreeAt {α : Type} (heap : α → Consensus.Params α) : α → List α → Prop
  | node (n : α) (L R : List α)
      (hl : ∀ l, (heap n).pLeft = some l → TreeAt heap l L)
      (hr : ∀ r, (heap n).pRight = some r → TreeAt heap r R)
      (hln : (heap n).pLeft = none → L = [])
      (hrn : (heap n).pRight = none → R = [])
      (hnL : n ∉ L) (hnR : n ∉ R) (hLR : ∀ x, x ∈ L → x ∉ R) :
      TreeAt heap n (n :: (L ++ R))

/-- `Reach heap n m`: `m` is `n` itself or a descendant of `n`, reached through
`pLeft` / `pRight` links. -/
inductive Reach {α : Type} (heap : α → Consensus.Params α) : α → α → Prop
  | self (n : α) : Reach heap n n
  | viaLeft (n l m : α) : (heap n).pLeft = some l → Reach heap l m → Reach heap n m
  | viaRight (n r m : α) : (heap n).pRight = some r → Reach heap r m → Reach heap n m

/-- `DepthLe heap n d`: every chain of `pLeft` / `pRight` links starting at `n` visits at
most `d` objects. Some such `d` exists exactly when the structure under `n` is finite and
acyclic; for a tree, the least `d` is its depth (counted in nodes). -/
inductive DepthLe {α : Type} (heap : α → Consensus.Params α) : α → Nat → Prop
  | node (n : α) (d : Nat)
      (hl : ∀ l, (heap n).pLeft = some l → DepthLe heap l d)
      (hr : ∀ r, (heap n).pRight = some r → DepthLe heap r d) :
      DepthLe heap n (d + 1)

/-- `LeftSpine heap n z`: `z` is on the chain of `pLeft` links that starts at `n`
(`n`, `n.pLeft`, `n.pLeft.pLeft`, ...). -/
inductive LeftSpine {α : Type} (heap : α → Consensus.Params α) : α → α → Prop
  | self (n : α) : LeftSpine heap n n
  | step (n l z : α) : (heap n).pLeft = some l → LeftSpine heap l z → LeftSpine heap n z


/-! ## Genesis block -/

/-- One element appended to a `CScript` by `operator<<`. -/
inductive ScriptItem
  | pushInt (n : Int)
  | pushScriptNum (n : Int)
  | pushBytes (s : String)
  | pushHex (hex : String)
  | OP_CHECKSIG
  deriving DecidableEq, Repr

/-- A `CScript`, as the sequence of elements streamed into it. -/
abbrev CScript := List ScriptItem

/-- Transaction input `CTxIn`: the previous output it refers to (hash, index) and the script. -/
structure CTxIn where
  prevoutHash : Nat
  prevoutN : Nat
  scriptSig : CScript
  nSequence : Nat
  deriving DecidableEq, Repr

/-- Transaction output `CTxOut`. -/
structure CTxOut where
  nValue : Int
  scriptPubKey : CScript
  deriving DecidableEq, Repr

/-- Transaction `CMutableTransaction`. -/
structure CMutableTransaction where
  nVersion : Int
  vin : List CTxIn
  vout : List CTxOut
  nLockTime : Nat
  deriving DecidableEq, Repr

/-- Block `CBlock`: header fields and transactions. -/
structure CBlock where
  nVersion : Int
  hashPrevBlock : Nat
  hashMerkleRoot : Nat
  nTime : Nat
  nBits : Nat
  nNonce : Nat
  vtx : List CMutableTransaction
  deriving DecidableEq, Repr

/-- Members of a `CChainParams` object that hold a `Consensus::Params`; these are the
addresses the links `pLeft`, `pRight` and `pConsensusRoot` of one profile can hold. -/
inductive Member
  | consensus
  | digishieldConsensus
  | auxpowConsensus
  | minDifficultyConsensus
  deriving DecidableEq, Repr

/-- What `chainparams.cpp` uses and does not declare: default-constructed objects, the
amount unit, the two hash functions and the fixed seed tables. -/
structure Env where
  /-- A default-constructed `Consensus::Params`. -/
  defaultParams : Consensus.Params Member
  /-- A default-constructed `CTxIn`. -/
  defaultTxIn : CTxIn
  /-- A default-constructed `CTxOut`. -/
  defaultTxOut : CTxOut
  /-- The `nLockTime` of a default-constructed `CMutableTransaction`. -/
  defaultLockTime : Nat
  /-- Constant `COIN`. -/
  COIN : Int
  /-- Function `BlockMerkleRoot(block)`. -/
  BlockMerkleRoot : CBlock → Nat
  /-- Method `CBlock::GetHash()`. -/
  GetHash : CBlock → Nat
  /-- Table `pnSeed6_main`. -/
  pnSeed6_main : List (List Nat × Nat)
  /-- Table `pnSeed6_test`. -/
  pnSeed6_test : List (List Nat × Nat)

/-- `CreateGenesisBlock(pszTimestamp, genesisOutputScript, nTime, nNonce, nBits, nVersion,
genesisReward)`. -/
def CreateGenesisBlock (env : Env) (pszTimestamp : String) (genesisOutputScript : CScript)
    (nTime nNonce nBits : Nat) (nVersion : Int) (genesisReward : Int) : CBlock :=
  let txNew : CMutableTransaction :=
    { nVersion := 1
      vin := [{ env.defaultTxIn with
                scriptSig := [.pushInt 486604799, .pushScriptNum 4, .pushBytes pszTimestamp] }]
      vout := [{ env.defaultTxOut with
                 nValue := genesisReward, scriptPubKey := genesisOutputScript }]
      nLockTime := env.defaultLockTime }
  let genesis : CBlock :=
    { nVersion := nVersion
      hashPrevBlock := 0
      hashMerkleRoot := 0
      nTime := nTime
      nBits := nBits
      nNonce := nNonce
      vtx := [txNew] }
  { genesis with hashMerkleRoot := env.BlockMerkleRoot genesis }

/-- The text embedded in the genesis coinbase. -/
def pszTimestamp : String :=
  "May 22, 2013, 12:16 a.m. EDT: Japan\x92s Nikkei Stock Average JP:NIK +1.77%, which ended at their highest level in more than five years in each of the last three trading sessions, climbed a further 1.2% Wednesday"

/-- The output script of the genesis coinbase. -/
def genesisOutputScript : CScript :=
  [.pushHex "040184710fa689ad5023690c80f3a49c8f13f8d45b8c857fbcbc8bc4a8e4d3eb4b10f4d4604fa08dce601aaf0f470216fe1b51850b4acf21b179c45070ac7b03a9",
   .OP_CHECKSIG]

/-- `CreateGenesisBlock(nTime, nNonce, nBits, nVersion, genesisReward)`: the overload with
the fixed message and output script. -/
def CreateGenesisBlockFixed (env : Env) (nTime nNonce nBits : Nat) (nVersion : Int)
    (genesisReward : Int) : CBlock :=
  CreateGenesisBlock env pszTimestamp genesisOutputScript nTime nNonce nBits nVersion
    genesisReward

/-! ## Network profiles -/

/-- Enumeration `CChainParams::Base58Type`. -/
inductive Base58Type
  | PUBKEY_ADDRESS
  | SCRIPT_ADDRESS
  | SECRET_KEY
  | EXT_PUBLIC_KEY
  | EXT_SECRET_KEY
  deriving DecidableEq, Repr

/-- Struct `ChainTxData`. -/
structure ChainTxData where
  nTime : Int
  nTxCount : Int
  dTxRate : Int
  deriving DecidableEq, Repr

/-- The state of a `CChainParams` object (with the `Consensus::Params` members its
subclasses add). -/
structure CChainParams where
  strNetworkID : String
  consensus : Consensus.Params Member
  digishieldConsensus : Consensus.Params Member
  auxpowConsensus : Consensus.Params Member
  minDifficultyConsensus : Consensus.Params Member
  pConsensusRoot : Option Member
  pchMessageStart : List Nat
  nDefaultPort : Int
  nPruneAfterHeight : Nat
  genesis : CBlock
  vSeeds : List (String × String × Bool)
  base58Prefixes : Base58Type → List Nat
  vFixedSeeds : List (List Nat × Nat)
  fMiningRequiresPeers : Bool
  fDefaultConsistencyChecks : Bool
  fRequireStandard : Bool
  fMineBlocksOnDemand : Bool
  checkpointData : List (Int × Nat)
  chainTxData : ChainTxData

/-- The `Consensus::Params` object held by member `m` of profile `p`. -/
def CChainParams.heap (p : CChainParams) : Member → Consensus.Params Member
  | .consensus => p.consensus
  | .digishieldConsensus => p.digishieldConsensus
  | .auxpowConsensus => p.auxpowConsensus
  | .minDifficultyConsensus => p.minDifficultyConsensus

/-- Assignment `v[d].bit = x`. -/
def setBit (v : DeploymentPos → BIP9Deployment) (d : DeploymentPos) (x : Int) :
    DeploymentPos → BIP9Deployment :=
  fun e => if e = d then { v e with bit := x } else v e

/-- Assignment `v[d].nStartTime = x`. -/
def setStartTime (v : DeploymentPos → BIP9Deployment) (d : DeploymentPos) (x : Int) :
    DeploymentPos → BIP9Deployment :=
  fun e => if e = d then { v e with nStartTime := x } else v e

/-- Assignment `v[d].nTimeout = x`. -/
def setTimeout (v : DeploymentPos → BIP9Deployment) (d : DeploymentPos) (x : Int) :
    DeploymentPos → BIP9Deployment :=
  fun e => if e = d then { v e with nTimeout := x } else v e

/-- One `bit` / `nStartTime` / `nTimeout` triple of assignments for deployment `d`. -/
def setDeployment (v : DeploymentPos → BIP9Deployment) (d : DeploymentPos)
    (bit nStartTime nTimeout : Int) : DeploymentPos → BIP9Deployment :=
  setTimeout (setStartTime (setBit v d bit) d nStartTime) d nTimeout

/-- Constructor `CMainParams::CMainParams()`: the state of the object when the constructor
body has run (the two `assert`s are `CMainParams_asserts`). -/
def CMainParams (env : Env) : CChainParams :=
  have consensus : Consensus.Params Member := env.defaultParams
  have consensus := { consensus with nSubsidyHalvingInterval := 100000 }
  have consensus := { consensus with nMajorityEnforceBlockUpgrade := 1500 }
  have consensus := { consensus with nMajorityRejectBlockOutdated := 1900 }
  have consensus := { consensus with nMajorityWindow := 2000 }
  have consensus := { consensus with
    BIP34Hash := 0x9b7bce58999062b63bfb18586813c42491fa32f4591d8d3043cb4fa9e551541b }
  have consensus := { consensus with BIP65Height := 0x210c }
  have consensus := { consensus with BIP66Height := 0x210c }
  have consensus := { consensus with
    powLimit := 0x00000fffffffffffffffffffffffffffffffffffffffffffffffffffffffffff }
  have consensus := { consensus with nPowTargetTimespan := 20 * 60 }
  have consensus := { consensus with nPowTargetSpacing := 60 }
  have consensus := { consensus with nCoinbaseMaturity := 90 }
  have consensus := { consensus with fPowNoRetargeting := false }
  have consensus := { consensus with nRuleChangeActivationThreshold := 9576 }
  have consensus := { consensus with nMinerConfirmationWindow := 10080 }
  have consensus := { consensus with vDeployments :=
      (setDeployment consensus.vDeployments .DEPLOYMENT_TESTDUMMY 28 1199145601 1230767999) }
  have consensus := { consensus with vDeployments :=
      (setDeployment consensus.vDeployments .DEPLOYMENT_BIP34 0 1534490155 1764490155) }
  have consensus := { consensus with vDeployments :=
      (setDeployment consensus.vDeployments .DEPLOYMENT_BIP66 1 1534490155 1764490155) }
  have consensus := { consensus with vDeployments :=
      (setDeployment consensus.vDeployments .DEPLOYMENT_BIP65 2 1534490155 1764490155) }
  have consensus := { consensus with vDeployments :=
      (setDeployment consensus.vDeployments .DEPLOYMENT_CSV 3 1724732207 1764490155) }
  have consensus := { consensus with vDeployments :=
      (setDeployment consensus.vDeployments .DEPLOYMENT_SEGWIT 4 1724732207 1764490155) }
  have consensus := { consensus with
    nMinimumChainWork := 0x000000000000000000000000000000000000000000000000000331bcd694b668 }
  have consensus := { consensus with
    defaultAssumeValid := 0x324635c8e36f663b0adb126a21ad0bd7fa43cc5c5f15aec992bf4dde650bc0ea }
  have consensus := { consensus with nAuxpowChainId := 0x2013 }
  have consensus := { consensus with nAuxpowStartHeight := 176000 }
  have consensus := { consensus with nBlockAfterAuxpowRewardThreshold := 5 }
  have consensus := { consensus with fStrictChainId := true }
  -- We do not activate digishield in this consensus
  have digishieldConsensus := consensus
  have digishieldConsensus := { digishieldConsensus with nHeightEffective := 0xFFFFFFFF }
  have digishieldConsensus := { digishieldConsensus with fSimplifiedRewards := true }
  have digishieldConsensus :=
    { digishieldConsensus with fDigishieldDifficultyCalculation := true }
  have digishieldConsensus := { digishieldConsensus with nPowTargetTimespan := 60 }
  have digishieldConsensus := { digishieldConsensus with nCoinbaseMaturity := 70 }
  -- Not implementing digishield yet
  have minDifficultyConsensus := digishieldConsensus
  have minDifficultyConsensus := { minDifficultyConsensus with nHeightEffective := UINT32_MAX }
  have minDifficultyConsensus :=
    { minDifficultyConsensus with fPowAllowDigishieldMinDifficultyBlocks := true }
  have minDifficultyConsensus :=
    { minDifficultyConsensus with fPowAllowMinDifficultyBlocks := false }
  -- Not implementing AuxPow hardfork yet
  have auxpowConsensus := digishieldConsensus
  have auxpowConsensus := { auxpowConsensus with nHeightEffective := UINT32_MAX }
  -- Assemble the binary search tree of consensus parameters
  have pConsensusRoot := some Member.digishieldConsensus
  have digishieldConsensus := { digishieldConsensus with pLeft := some Member.consensus }
  have digishieldConsensus :=
    { digishieldConsensus with pRight := some Member.auxpowConsensus }
  have pchMessageStart := [0xfb, 0xc0, 0xb6, 0xdb]
  have nDefaultPort := 9917
  have nPruneAfterHeight := 100000
  have genesis := CreateGenesisBlockFixed env 1369199888 11288888 0x1e0ffff0 1 (88 * env.COIN)
  have consensus := { consensus with hashGenesisBlock := env.GetHash genesis }
  have digishieldConsensus :=
    { digishieldConsensus with hashGenesisBlock := consensus.hashGenesisBlock }
  have auxpowConsensus := { auxpowConsensus with hashGenesisBlock := consensus.hashGenesisBlock }
  have vSeeds := [("dogecoinfoundation.org", "dnsseed.dogecoinfoundation.org", true)]
  have base58Prefixes : Base58Type → List Nat := fun
    | .PUBKEY_ADDRESS => [47]
    | .SCRIPT_ADDRESS => [5]
    | .SECRET_KEY => [176]
    | .EXT_PUBLIC_KEY => [0x04, 0x88, 0xB2, 0x1E]
    | .EXT_SECRET_KEY => [0x04, 0x88, 0xAD, 0xE4]
  have vFixedSeeds := env.pnSeed6_main
  have checkpointData : List (Int × Nat) :=
    [ (0, 0x9b7bce58999062b63bfb18586813c42491fa32f4591d8d3043cb4fa9e551541b),
      (1, 0xcf2f78756f0fa64bc4ce80e6d500661cc4c20f2be28c7d859467dceb0adfa2de),
      (53, 0x9343eae8db94d5d5e945b0c0a6b83647b6a3a8fd89cd170a757e06dcbf2e3bed),
      (117, 0x5208d62f44467e800a92bfb18fc0fd4c39d9fed28f4ad160262f96dd90111ec3),
      (200, 0xa5ce00c4aab4f9deccbef0af27adadb29cbf111eb442e92895d7302eb047ad4e),
      (6452, 0xe502fdfb3a35ee853ccd4a68433b1f9bbe3295c7d453fbcc484d06a766971475),
      (10978, 0x88fcee5009a0febf7832750d0246bf4a9b88f8195befc795e5f34b0d1e0e92f9),
      (17954, 0x7d40a9b80dd1b585b36e092aefcd3e579ef38f3180ea55dac53ead486f5d9cd2),
      (23978, 0x6f111b6eef7dccc2da3c85014964aa402f39c684ba5709b576777503c87141af),
      (33212, 0xe3b53359c1b088ec1f772d53eaa765d5c7410f0d9914e69bdb2a0fc881ddc9e8),
      (45527, 0x41849cf3bd7b819a6a994d17dcfb1cbc7eadfe63fa61cc1411cfe42177abc06a),
      (57484, 0x807fb268c7faabc70cc95c1027cbf1e555834e5bf9e19e01ef785be88853ae88),
      (69240, 0x07d2b42e1898d59594b10f26fdc76d4f970a10b4b330237012f48eb489c8d744),
      (73892, 0x5b43092ef40969b65878cee7c568e622a4a9d950a130858a10914402797f96b1),
      (168312, 0x26816c8861d283ab9bdf4539e5398f65ae5687b90f62cee28036f6e8387933e8),
      (170421, 0x647540c0bce26bdcc4f863a6163c1dc86824899835af31cb9d649a85caca38ec),
      (170924, 0x28e1a097871c66d25021091fbd68d0f0301d3fc0b106e8d7c6e190e39a20b335),
      (172330, 0x8458c3eeda44dc11352edad04e0eb69ae898c69c0dded3b3903b37f5bf352555),
      (173502, 0x23bf72398801d9d7cf6d191d06afe49641ec450a8eb960936091bad69d9fb006) ]
  { strNetworkID := "main"
    consensus := consensus
    digishieldConsensus := digishieldConsensus
    auxpowConsensus := auxpowConsensus
    minDifficultyConsensus := minDifficultyConsensus
    pConsensusRoot := pConsensusRoot
    pchMessageStart := pchMessageStart
    nDefaultPort := nDefaultPort
    nPruneAfterHeight := nPruneAfterHeight
    genesis := genesis
    vSeeds := vSeeds
    base58Prefixes := base58Prefixes
    vFixedSeeds := vFixedSeeds
    fMiningRequiresPeers := true
    fDefaultConsistencyChecks := false
    fRequireStandard := true
    fMineBlocksOnDemand := false
    checkpointData := checkpointData
    chainTxData := { nTime := 0, nTxCount := 0, dTxRate := 0 } }

/-- The two `assert`s of `CMainParams::CMainParams()`: the constructor returns only when
both hold. -/
def CMainParams_asserts (env : Env) : Bool :=
  decide ((CMainParams env).consensus.hashGenesisBlock =
      0x9b7bce58999062b63bfb18586813c42491fa32f4591d8d3043cb4fa9e551541b) &&
    decide ((CMainParams env).genesis.hashMerkleRoot =
      0x6f80efd038566e1e3eab3e1d38131604d06481e77f2462235c6a9a94b1f8abf9)

/-- Constructor `CTestNetParams::CTestNetParams()`: the state of the object when the constructor
body has run (the two `assert`s are `CTestNetParams_asserts`). -/
def CTestNetParams (env : Env) : CChainParams :=
  have consensus : Consensus.Params Member := env.defaultParams
  have consensus := { consensus with nSubsidyHalvingInterval := 100000 }
  have consensus := { consensus with nMajorityEnforceBlockUpgrade := 1500 }
  have consensus := { consensus with nMajorityRejectBlockOutdated := 1900 }
  have consensus := { consensus with nMajorityWindow := 2000 }
  have consensus := { consensus with BIP34Hash := 0x00 }
  have consensus := { consensus with BIP65Height := 99999999 }
  have consensus := { consensus with BIP65Height := 99999999 }
  have consensus := { consensus with BIP66Height := 99999999 }
  have consensus := { consensus with
    powLimit := 0x00000fffffffffffffffffffffffffffffffffffffffffffffffffffffffffff }
  have consensus := { consensus with nPowTargetTimespan := 4 * 60 * 60 }
  have consensus := { consensus with nPowTargetSpacing := 60 }
  have consensus := { consensus with nCoinbaseMaturity := 30 }
  have consensus := { consensus with fPowNoRetargeting := false }
  have consensus := { consensus with nRuleChangeActivationThreshold := 9576 }
  have consensus := { consensus with nMinerConfirmationWindow := 10080 }
  have consensus := { consensus with vDeployments :=
      (setDeployment consensus.vDeployments .DEPLOYMENT_TESTDUMMY 28 1199145601 1230767999) }
  have consensus := { consensus with vDeployments :=
      (setDeployment consensus.vDeployments .DEPLOYMENT_BIP34 0 1703462400 1735084800) }
  have consensus := { consensus with vDeployments :=
      (setDeployment consensus.vDeployments .DEPLOYMENT_BIP66 1 1703462400 1735084800) }
  have consensus := { consensus with vDeployments :=
      (setDeployment consensus.vDeployments .DEPLOYMENT_BIP65 2 1703462400 1735084800) }
  have consensus := { consensus with vDeployments :=
      (setDeployment consensus.vDeployments .DEPLOYMENT_CSV 3 1703462400 1735084800) }
  have consensus := { consensus with vDeployments :=
      (setDeployment consensus.vDeployments .DEPLOYMENT_SEGWIT 4 1703462400 1735084800) }
  have consensus := { consensus with
    nMinimumChainWork := 0x000000000000000000000000000000000000000000000000003e3c33bc605e5d }
  have consensus := { consensus with defaultAssumeValid :=
    0x9b7bce58999062b63bfb18586813c42491fa32f4591d8d3043cb4fa9e551541b }
  have consensus := { consensus with nAuxpowChainId := 0x0062 }
  have consensus := { consensus with nAuxpowStartHeight := 0 }
  have consensus := { consensus with nBlockAfterAuxpowRewardThreshold := 5 }
  have consensus := { consensus with fStrictChainId := true }
  -- We do not activate digishield in this consensus
  have digishieldConsensus := consensus
  have digishieldConsensus := { digishieldConsensus with nHeightEffective := 0xFFFFFFFF }
  have digishieldConsensus := { digishieldConsensus with fSimplifiedRewards := true }
  have digishieldConsensus :=
    { digishieldConsensus with fDigishieldDifficultyCalculation := true }
  have digishieldConsensus := { digishieldConsensus with nPowTargetTimespan := 60 }
  have digishieldConsensus := { digishieldConsensus with nCoinbaseMaturity := 240 }
  -- Not implementing digishield yet
  have minDifficultyConsensus := digishieldConsensus
  have minDifficultyConsensus := { minDifficultyConsensus with nHeightEffective := UINT32_MAX }
  have minDifficultyConsensus :=
    { minDifficultyConsensus with fPowAllowDigishieldMinDifficultyBlocks := true }
  have minDifficultyConsensus :=
    { minDifficultyConsensus with fPowAllowMinDifficultyBlocks := true }
  -- Not implementing AuxPow hardfork yet
  have auxpowConsensus := digishieldConsensus
  have auxpowConsensus := { auxpowConsensus with nHeightEffective := UINT32_MAX }
  -- Assemble the binary search tree of consensus parameters
  have pConsensusRoot := some Member.digishieldConsensus
  have digishieldConsensus := { digishieldConsensus with pLeft := some Member.consensus }
  have digishieldConsensus :=
    { digishieldConsensus with pRight := some Member.auxpowConsensus }
  have pchMessageStart := [0xfc, 0xc1, 0xb7, 0xdc]
  have nDefaultPort := 19917
  have nPruneAfterHeight := 100000
  have genesis := CreateGenesisBlockFixed env 1369199888 12097647 0x1e0ffff0 1 (88 * env.COIN)
  have consensus := { consensus with hashGenesisBlock := env.GetHash genesis }
  have digishieldConsensus :=
    { digishieldConsensus with hashGenesisBlock := consensus.hashGenesisBlock }
  have auxpowConsensus := { auxpowConsensus with hashGenesisBlock := consensus.hashGenesisBlock }
  have base58Prefixes : Base58Type → List Nat := fun
    | .PUBKEY_ADDRESS => [47]
    | .SCRIPT_ADDRESS => [5]
    | .SECRET_KEY => [153]
    | .EXT_PUBLIC_KEY => [0x02, 0xfa, 0xca, 0xfd]
    | .EXT_SECRET_KEY => [0x02, 0xfa, 0xc3, 0x98]
  have vFixedSeeds := env.pnSeed6_test
  have checkpointData : List (Int × Nat) :=
    [ (0, 0x324635c8e36f663b0adb126a21ad0bd7fa43cc5c5f15aec992bf4dde650bc0ea) ]
  { strNetworkID := "test"
    consensus := consensus
    digishieldConsensus := digishieldConsensus
    auxpowConsensus := auxpowConsensus
    minDifficultyConsensus := minDifficultyConsensus
    pConsensusRoot := pConsensusRoot
    pchMessageStart := pchMessageStart
    nDefaultPort := nDefaultPort
    nPruneAfterHeight := nPruneAfterHeight
    genesis := genesis
    vSeeds := []
    base58Prefixes := base58Prefixes
    vFixedSeeds := vFixedSeeds
    fMiningRequiresPeers := false
    fDefaultConsistencyChecks := true
    fRequireStandard := false
    fMineBlocksOnDemand := true
    checkpointData := checkpointData
    chainTxData := { nTime := 0, nTxCount := 0, dTxRate := 0 } }

/-- The two `assert`s of `CTestNetParams::CTestNetParams()`: the constructor returns only when
both hold. -/
def CTestNetParams_asserts (env : Env) : Bool :=
  decide ((CTestNetParams env).consensus.hashGenesisBlock =
      0x324635c8e36f663b0adb126a21ad0bd7fa43cc5c5f15aec992bf4dde650bc0ea) &&
    decide ((CTestNetParams env).genesis.hashMerkleRoot =
      0x6f80efd038566e1e3eab3e1d38131604d06481e77f2462235c6a9a94b1f8abf9)

/-- Constructor `CRegTestParams::CRegTestParams()`: the state of the object when the constructor
body has run (the two `assert`s are `CRegTestParams_asserts`). -/
def CRegTestParams (env : Env) : CChainParams :=
  have consensus : Consensus.Params Member := env.defaultParams
  have consensus := { consensus with nSubsidyHalvingInterval := 100000 }
  have consensus := { consensus with nMajorityEnforceBlockUpgrade := 1500 }
  have consensus := { consensus with nMajorityRejectBlockOutdated := 1900 }
  have consensus := { consensus with nMajorityWindow := 2000 }
  have consensus := { consensus with BIP34Hash := 0x00 }
  have consensus := { consensus with BIP65Height := 99999999 }
  have consensus := { consensus with BIP65Height := 99999999 }
  have consensus := { consensus with BIP66Height := 99999999 }
  have consensus := { consensus with
    powLimit := 0x00000fffffffffffffffffffffffffffffffffffffffffffffffffffffffffff }
  have consensus := { consensus with nPowTargetTimespan := 4 * 60 * 60 }
  have consensus := { consensus with nPowTargetSpacing := 60 }
  have consensus := { consensus with nCoinbaseMaturity := 30 }
  have consensus := { consensus with fPowNoRetargeting := false }
  have consensus := { consensus with nRuleChangeActivationThreshold := 9576 }
  have consensus := { consensus with nMinerConfirmationWindow := 10080 }
  have consensus := { consensus with vDeployments :=
      (setDeployment consensus.vDeployments .DEPLOYMENT_TESTDUMMY 28 1199145601 1230767999) }
  have consensus := { consensus with vDeployments :=
      (setDeployment consensus.vDeployments .DEPLOYMENT_BIP34 0 1703462400 1735084800) }
  have consensus := { consensus with vDeployments :=
      (setDeployment consensus.vDeployments .DEPLOYMENT_BIP66 1 1703462400 1735084800) }
  have consensus := { consensus with vDeployments :=
      (setDeployment consensus.vDeployments .DEPLOYMENT_BIP65 2 1703462400 1735084800) }
  have consensus := { consensus with vDeployments :=
      (setDeployment consensus.vDeployments .DEPLOYMENT_CSV 3 1703462400 1735084800) }
  have consensus := { consensus with vDeployments :=
      (setDeployment consensus.vDeployments .DEPLOYMENT_SEGWIT 4 1703462400 1735084800) }
  have consensus := { consensus with
    nMinimumChainWork := 0x000000000000000000000000000000000000000000000000003e3c33bc605e5d }
  have consensus := { consensus with defaultAssumeValid :=
    0x2c05ea6918e28ca2d216c6518940c8782c09bebfe705d792155465662e275351 }
  have consensus := { consensus with nAuxpowChainId := 0x0062 }
  have consensus := { consensus with nAuxpowStartHeight := 0 }
  have consensus := { consensus with nBlockAfterAuxpowRewardThreshold := 5 }
  have consensus := { consensus with fStrictChainId := true }
  -- We do not activate digishield in this consensus
  have digishieldConsensus := consensus
  have digishieldConsensus := { digishieldConsensus with nHeightEffective := 0xFFFFFFFF }
  have digishieldConsensus := { digishieldConsensus with fSimplifiedRewards := true }
  have digishieldConsensus :=
    { digishieldConsensus with fDigishieldDifficultyCalculation := true }
  have digishieldConsensus := { digishieldConsensus with nPowTargetTimespan := 60 }
  have digishieldConsensus := { digishieldConsensus with nCoinbaseMaturity := 240 }
  -- Not implementing digishield yet
  have minDifficultyConsensus := digishieldConsensus
  have minDifficultyConsensus := { minDifficultyConsensus with nHeightEffective := UINT32_MAX }
  have minDifficultyConsensus :=
    { minDifficultyConsensus with fPowAllowDigishieldMinDifficultyBlocks := true }
  have minDifficultyConsensus :=
    { minDifficultyConsensus with fPowAllowMinDifficultyBlocks := true }
  -- Not implementing AuxPow hardfork yet
  have auxpowConsensus := digishieldConsensus
  have auxpowConsensus := { auxpowConsensus with nHeightEffective := UINT32_MAX }
  -- Assemble the binary search tree of consensus parameters
  have pConsensusRoot := some Member.digishieldConsensus
  have digishieldConsensus := { digishieldConsensus with pLeft := some Member.consensus }
  have digishieldConsensus :=
    { digishieldConsensus with pRight := some Member.auxpowConsensus }
  have pchMessageStart := [0xc0, 0xc0, 0xc0, 0xc0]
  have nDefaultPort := 19917
  have nPruneAfterHeight := 100000
  have genesis := CreateGenesisBlockFixed env 1369199888 12097647 0x1e0ffff0 1 (88 * env.COIN)
  have consensus := { consensus with hashGenesisBlock := env.GetHash genesis }
  have digishieldConsensus :=
    { digishieldConsensus with hashGenesisBlock := consensus.hashGenesisBlock }
  have auxpowConsensus := { auxpowConsensus with hashGenesisBlock := consensus.hashGenesisBlock }
  have base58Prefixes : Base58Type → List Nat := fun
    | .PUBKEY_ADDRESS => [47]
    | .SCRIPT_ADDRESS => [5]
    | .SECRET_KEY => [153]
    | .EXT_PUBLIC_KEY => [0x02, 0xfa, 0xca, 0xfd]
    | .EXT_SECRET_KEY => [0x02, 0xfa, 0xc3, 0x98]
  have vFixedSeeds := env.pnSeed6_main
  have checkpointData : List (Int × Nat) :=
    [ (0, 0x324635c8e36f663b0adb126a21ad0bd7fa43cc5c5f15aec992bf4dde650bc0ea) ]
  { strNetworkID := "regtest"
    consensus := consensus
    digishieldConsensus := digishieldConsensus
    auxpowConsensus := auxpowConsensus
    minDifficultyConsensus := minDifficultyConsensus
    pConsensusRoot := pConsensusRoot
    pchMessageStart := pchMessageStart
    nDefaultPort := nDefaultPort
    nPruneAfterHeight := nPruneAfterHeight
    genesis := genesis
    vSeeds := []
    base58Prefixes := base58Prefixes
    vFixedSeeds := vFixedSeeds
    fMiningRequiresPeers := false
    fDefaultConsistencyChecks := true
    fRequireStandard := false
    fMineBlocksOnDemand := true
    checkpointData := checkpointData
    chainTxData := { nTime := 0, nTxCount := 0, dTxRate := 0 } }

/-- The two `assert`s of `CRegTestParams::CRegTestParams()`: the constructor returns only when
both hold. -/
def CRegTestParams_asserts (env : Env) : Bool :=
  decide ((CRegTestParams env).consensus.hashGenesisBlock =
      0x324635c8e36f663b0adb126a21ad0bd7fa43cc5c5f15aec992bf4dde650bc0ea) &&
    decide ((CRegTestParams env).genesis.hashMerkleRoot =
      0x6f80efd038566e1e3eab3e1d38131604d06481e77f2462235c6a9a94b1f8abf9)

/-- Method `CRegTestParams::UpdateBIP9Parameters(d, nStartTime, nTimeout)`. -/
def CChainParams.UpdateBIP9Parameters (p : CChainParams) (d : DeploymentPos)
    (nStartTime nTimeout : Int) : CChainParams :=
  let consensus := p.consensus
  let consensus :=
    { consensus with vDeployments := setStartTime consensus.vDeployments d nStartTime }
  let consensus :=
    { consensus with vDeployments := setTimeout consensus.vDeployments d nTimeout }
  { p with consensus := consensus }

/-! ## The registry -/

/-- Modelled from the spec: the constant `CBaseChainParams::MAIN`, declared outside these
sources; the spec gives the fixed set of network names as "main", "test", "regtest". -/
def CBaseChainParams.MAIN : String := "main"

/-- Modelled from the spec: the constant `CBaseChainParams::TESTNET`, declared outside these
sources; the spec gives the fixed set of network names as "main", "test", "regtest". -/
def CBaseChainParams.TESTNET : String := "test"

/-- Modelled from the spec: the constant `CBaseChainParams::REGTEST`, declared outside these
sources; the spec gives the fixed set of network names as "main", "test", "regtest". -/
def CBaseChainParams.REGTEST : String := "regtest"

/-- The three static profile objects `mainParams`, `testNetParams`, `regTestParams`: the
addresses a `CChainParams*` can hold. -/
inductive ProfileRef
  | mainParams
  | testNetParams
  | regTestParams
  deriving DecidableEq, Repr

/-- Function `Params(const std::string& chain)`: a reference to one of the three static
profiles, or the `std::runtime_error` it throws (with its message). -/
def Params (chain : String) : Except String ProfileRef :=
  if chain = CBaseChainParams.MAIN then
    .ok .mainParams
  else if chain = CBaseChainParams.TESTNET then
    .ok .testNetParams
  else if chain = CBaseChainParams.REGTEST then
    .ok .regTestParams
  else
    .error ("Params: Unknown chain " ++ chain ++ ".")

/-- The static objects of `chainparams.cpp`, and in `base` the state that
`SelectBaseParams` owns. -/
structure Globals (β : Type) where
  mainParams : CChainParams
  testNetParams : CChainParams
  regTestParams : CChainParams
  pCurrentParams : Option ProfileRef
  base : β

/-- The static objects when static initialisation is over: the three profiles constructed,
`pCurrentParams = 0`. -/
def Globals.init {β : Type} (env : Env) (b : β) : Globals β :=
  { mainParams := CMainParams env
    testNetParams := CTestNetParams env
    regTestParams := CRegTestParams env
    pCurrentParams := none
    base := b }

/-- The profile object a `CChainParams*` points to. -/
def Globals.deref {β : Type} (g : Globals β) : ProfileRef → CChainParams
  | .mainParams => g.mainParams
  | .testNetParams => g.testNetParams
  | .regTestParams => g.regTestParams

/-- Function `Params()`, the active profile: `none` is the failed `assert(pCurrentParams)`,
which aborts the process. -/
def ParamsCurrent {β : Type} (g : Globals β) : Option ProfileRef :=
  match g.pCurrentParams with
  | none => none
  | some p => some p

/-- The behaviour of `SelectBaseParams(network)`, which is defined outside these sources:
the state it leaves in `base`, and the exception it throws, if any. -/
abbrev BaseSelector (β : Type) := String → β → β × Option String

/-- Function `SelectParams(network)`: the globals after the call and the exception that
leaves it, if any (`none`: the call returned). -/
def SelectParams {β : Type} (SelectBaseParams : BaseSelector β) (network : String)
    (g : Globals β) : Globals β × Option String :=
  match SelectBaseParams network g.base with
  | (b, some e) => ({ g with base := b }, some e)
  | (b, none) =>
    let g := { g with base := b }
    match Params network with
    | .error e => (g, some e)
    | .ok p => ({ g with pCurrentParams := some p }, none)

/-- Function `UpdateRegtestBIP9Parameters(d, nStartTime, nTimeout)`. -/
def UpdateRegtestBIP9Parameters {β : Type} (d : DeploymentPos) (nStartTime nTimeout : Int)
    (g : Globals β) : Globals β :=
  { g with regTestParams := g.regTestParams.UpdateBIP9Parameters d nStartTime nTimeout }

/-- A call of one of the two registry functions: `SelectParams(network)` or `Params()`. -/
inductive RegistryCall
  | SelectParams (network : String)
  | Params
  deriving DecidableEq, Repr

/-- The globals after one registry call, a caller catching the exception of a
`SelectParams` that throws. `Params()` assigns nothing. -/
def RegistryCall.step {β : Type} (SelectBaseParams : BaseSelector β) :
    RegistryCall → Globals β → Globals β
  | .SelectParams network, g => (Dogecoin.SelectParams SelectBaseParams network g).1
  | .Params, g => g

/-- The globals after a sequence of registry calls made one after the other from `g`. -/
def run {β : Type} (SelectBaseParams : BaseSelector β) :
    List RegistryCall → Globals β → Globals β
  | [], g => g
  | c :: rest, g => run SelectBaseParams rest (c.step SelectBaseParams g)

/-- The network names of the `SelectParams` calls of a run that returned without an
exception, in call order. -/
def succeeded {β : Type} (SelectBaseParams : BaseSelector β) :
    List RegistryCall → Globals β → List String
  | [], _ => []
  | .SelectParams network :: rest, g =>
    let r := SelectParams SelectBaseParams network g
    (if r.2 = none then [network] else []) ++ succeeded SelectBaseParams rest r.1
  | .Params :: rest, g => succeeded SelectBaseParams rest g

/-- Modelled from the spec: `SelectBaseParams`, defined outside these sources, as the spec
has name selection: it accepts exactly the three network names (recording the name) and
throws for any other. -/
def SelectBaseParams : BaseSelector (Option String) := fun network b =>
  if network = CBaseChainParams.MAIN ∨ network = CBaseChainParams.TESTNET ∨
      network = CBaseChainParams.REGTEST then
    (some network, none)
  else
    (b, some ("BaseParams: Unknown chain " ++ network ++ "."))

/-- An environment for evaluating the constructors on: zeroed default objects, the hash
functions left trivial. -/
def Env.zero : Env :=
  { defaultParams :=
      { hashGenesisBlock := 0, nSubsidyHalvingInterval := 0, nMajorityEnforceBlockUpgrade := 0,
        nMajorityRejectBlockOutdated := 0, nMajorityWindow := 0, BIP34Hash := 0,
        BIP65Height := 0, BIP66Height := 0, powLimit := 0, nPowTargetTimespan := 0,
        nPowTargetSpacing := 0, nCoinbaseMaturity := 0, fPowNoRetargeting := false,
        fPowAllowMinDifficultyBlocks := false, fPowAllowDigishieldMinDifficultyBlocks := false,
        nRuleChangeActivationThreshold := 0, nMinerConfirmationWindow := 0,
        vDeployments := fun _ => { bit := 0, nStartTime := 0, nTimeout := 0 },
        nMinimumChainWork := 0, defaultAssumeValid := 0, nAuxpowChainId := 0,
        nAuxpowStartHeight := 0, nBlockAfterAuxpowRewardThreshold := 0, fStrictChainId := false,
        fSimplifiedRewards := false, fDigishieldDifficultyCalculation := false,
        nHeightEffective := 0, pLeft := none, pRight := none }
    defaultTxIn := { prevoutHash := 0, prevoutN := 0xFFFFFFFF, scriptSig := [],
                     nSequence := 0xFFFFFFFF }
    defaultTxOut := { nValue := -1, scriptPubKey := [] }
    defaultLockTime := 0
    COIN := 100000000
    BlockMerkleRoot := fun _ => 0
    GetHash := fun _ => 0
    pnSeed6_main := []
    pnSeed6_test := [] }

/-! ## A small tree to evaluate the walk on -/

/-- A `Consensus::Params` with the given activation height and links, every other field
zero. -/
def Consensus.Params.blank {α : Type} (nHeightEffective : Nat) (pLeft pRight : Option α) :
    Consensus.Params α :=
  { hashGenesisBlock := 0, nSubsidyHalvingInterval := 0, nMajorityEnforceBlockUpgrade := 0,
    nMajorityRejectBlockOutdated := 0, nMajorityWindow := 0, BIP34Hash := 0,
    BIP65Height := 0, BIP66Height := 0, powLimit := 0, nPowTargetTimespan := 0,
    nPowTargetSpacing := 0, nCoinbaseMaturity := 0, fPowNoRetargeting := false,
    fPowAllowMinDifficultyBlocks := false, fPowAllowDigishieldMinDifficultyBlocks := false,
    nRuleChangeActivationThreshold := 0, nMinerConfirmationWindow := 0,
    vDeployments := fun _ => { bit := 0, nStartTime := 0, nTimeout := 0 },
    nMinimumChainWork := 0, defaultAssumeValid := 0, nAuxpowChainId := 0,
    nAuxpowStartHeight := 0, nBlockAfterAuxpowRewardThreshold := 0, fStrictChainId := false,
    fSimplifiedRewards := false, fDigishieldDifficultyCalculation := false,
    nHeightEffective := nHeightEffective, pLeft := pLeft, pRight := pRight }

/-- An example heap: object 0 (height 100) has `pLeft` = object 1 (height 50, a leaf) and
`pRight` = object 2 (height 200), whose `pLeft` is object 3 (height 150, a leaf). -/
def exampleHeap : Nat → Consensus.Params Nat
  | 0 => .blank 100 (some 1) (some 2)
  | 1 => .blank 50 none none
  | 2 => .blank 200 (some 3) none
  | 3 => .blank 150 none none
  | _ => .blank 0 none none

/-- An example heap that is not a tree: object 0 (height 10) has object 1 (height 20, a
leaf) as both its `pLeft` and its `pRight`. -/
def sharedHeap : Nat → Consensus.Params Nat
  | 0 => .blank 10 (some 1) (some 1)
  | _ => .blank 20 none none

/-! ## The merkle root of the genesis block -/

/-- Modelled from the spec: what `BlockMerkleRoot` (consensus/merkle, outside these
sources) computes for the genesis block, "the hash of this single transaction (degenerate
one-leaf tree)": for a block holding exactly one transaction, the merkle root is the hash
`txHash` of that transaction, the hash function itself being opaque. -/
def MerkleRootIsTxHash (env : Env) (txHash : CMutableTransaction → Nat) : Prop :=
  ∀ (block : CBlock) (tx : CMutableTransaction), block.vtx = [tx] →
    env.BlockMerkleRoot block = txHash tx

/-- A stand-in transaction digest to evaluate the constructors on: it mixes the numbers of
inputs and outputs and the output values. -/
def toyTxHash (tx : CMutableTransaction) : Nat :=
  tx.vin.length + 2 * tx.vout.length + (tx.vout.map (fun o => o.nValue.toNat)).sum

/-- An environment whose merkle root is the sum of the stand-in digests of the block's
transactions, and whose block hash mixes the header fields. -/
def Env.toy : Env :=
  { Env.zero with
    BlockMerkleRoot := fun b => (b.vtx.map toyTxHash).sum
    GetHash := fun b => b.hashMerkleRoot + b.nTime + b.nNonce }

/-! # Theorems -/

/-! ## Stepping lemmas for `GetConsensus` -/

theorem GetConsensus_left {α : Type} (heap : α → Consensus.Params α) (fuel : Nat) (n l : α) (h : Nat)
    (hlt : h < (heap n).nHeightEffective) (hl : (heap n).pLeft = some l) :
    GetConsensus heap (fuel + 1) n h = GetConsensus heap fuel l h := by
  have hc : h < (heap n).nHeightEffective ∧ (heap n).pLeft.isSome = true := by
    simp [hlt, hl]
  rw [GetConsensus, dif_pos hc]
  simp [hl]

theorem GetConsensus_right {α : Type} (heap : α → Consensus.Params α) (fuel : Nat) (n r : α) (h : Nat)
    (hnl : ¬ (h < (heap n).nHeightEffective ∧ (heap n).pLeft.isSome))
    (hgt : h > (heap n).nHeightEffective) (hr : (heap n).pRight = some r) :
    GetConsensus heap (fuel + 1) n h =
      match GetConsensus heap fuel r h with
      | some c => if (heap c).nHeightEffective ≤ h then some c else some n
      | none => none := by
  have hc : h > (heap n).nHeightEffective ∧ (heap n).pRight.isSome = true := by
    simp [hgt, hr]
  rw [GetConsensus, dif_neg hnl, dif_pos hc]
  simp [hr]

theorem GetConsensus_self {α : Type} (heap : α → Consensus.Params α) (fuel : Nat) (n : α) (h : Nat)
    (hnl : ¬ (h < (heap n).nHeightEffective ∧ (heap n).pLeft.isSome))
    (hnr : ¬ (h > (heap n).nHeightEffective ∧ (heap n).pRight.isSome)) :
    GetConsensus heap (fuel + 1) n h = some n := by
  rw [GetConsensus, dif_neg hnl, dif_neg hnr]

/-! ## General facts about the tree walk -/

theorem DepthLe_mono {α : Type} (heap : α → Consensus.Params α) (n : α) (d : Nat)
    (hd : DepthLe heap n d) : ∀ e, d ≤ e → DepthLe heap n e := by
  induction hd with
  | node n d hl hr ihl ihr =>
    intro e he
    obtain ⟨e, rfl⟩ : ∃ k, e = k + 1 := ⟨e - 1, by omega⟩
    exact DepthLe.node n e (fun l h => ihl l h e (by omega)) (fun r h => ihr r h e (by omega))

/-- A finite tree has bounded depth: its number of nodes bounds every chain of links. -/
theorem TreeAt_depthLe {α : Type} (heap : α → Consensus.Params α) (n : α) (ns : List α)
    (ht : TreeAt heap n ns) : DepthLe heap n ns.length := by
  induction ht with
  | node n L R hl hr hln hrn hnL hnR hLR ihl ihr =>
    have hlen : (n :: (L ++ R)).length = (L ++ R).length + 1 := rfl
    rw [hlen]
    refine DepthLe.node n _ (fun l h => ?_) (fun r h => ?_)
    · exact DepthLe_mono heap l _ (ihl l h) _ (by simp)
    · exact DepthLe_mono heap r _ (ihr r h) _ (by simp)

/-- With a budget of at least the depth, the walk returns, and what it returns is the
start object or one of its descendants. -/
theorem GetConsensus_returns {α : Type} (heap : α → Consensus.Params α) (n : α) (d : Nat)
    (hd : DepthLe heap n d) :
    ∀ fuel h, d ≤ fuel → ∃ x, GetConsensus heap fuel n h = some x ∧ Reach heap n x := by
  induction hd with
  | node n d hl hr ihl ihr =>
    intro fuel h hfuel
    obtain ⟨f, rfl⟩ : ∃ k, fuel = k + 1 := ⟨fuel - 1, by omega⟩
    have hf : d ≤ f := by omega
    by_cases hc1 : h < (heap n).nHeightEffective ∧ (heap n).pLeft.isSome
    · obtain ⟨l, hl1⟩ := Option.isSome_iff_exists.mp hc1.2
      obtain ⟨x, hx, hreach⟩ := ihl l hl1 f h hf
      exact ⟨x, by rw [GetConsensus_left heap f n l h hc1.1 hl1, hx],
        Reach.viaLeft n l x hl1 hreach⟩
    · by_cases hc2 : h > (heap n).nHeightEffective ∧ (heap n).pRight.isSome
      · obtain ⟨r, hr1⟩ := Option.isSome_iff_exists.mp hc2.2
        obtain ⟨c, hc, hreach⟩ := ihr r hr1 f h hf
        rw [GetConsensus_right heap f n r h hc1 hc2.1 hr1, hc]
        by_cases hle : (heap c).nHeightEffective ≤ h
        · exact ⟨c, by simp [hle], Reach.viaRight n r c hr1 hreach⟩
        · exact ⟨n, by simp [hle], Reach.self n⟩
      · exact ⟨n, GetConsensus_self heap f n h hc1 hc2, Reach.self n⟩

/-- Once the budget covers the depth, the result does not depend on the budget. -/
theorem GetConsensus_fuel {α : Type} (heap : α → Consensus.Params α) (n : α) (d : Nat)
    (hd : DepthLe heap n d) :
    ∀ f1 f2 h, d ≤ f1 → d ≤ f2 → GetConsensus heap f1 n h = GetConsensus heap f2 n h := by
  induction hd with
  | node n d hl hr ihl ihr =>
    intro f1 f2 h h1 h2
    obtain ⟨f1, rfl⟩ : ∃ k, f1 = k + 1 := ⟨f1 - 1, by omega⟩
    obtain ⟨f2, rfl⟩ : ∃ k, f2 = k + 1 := ⟨f2 - 1, by omega⟩
    by_cases hc1 : h < (heap n).nHeightEffective ∧ (heap n).pLeft.isSome
    · obtain ⟨l, hl1⟩ := Option.isSome_iff_exists.mp hc1.2
      rw [GetConsensus_left heap f1 n l h hc1.1 hl1, GetConsensus_left heap f2 n l h hc1.1 hl1]
      exact ihl l hl1 f1 f2 h (by omega) (by omega)
    · by_cases hc2 : h > (heap n).nHeightEffective ∧ (heap n).pRight.isSome
      · obtain ⟨r, hr1⟩ := Option.isSome_iff_exists.mp hc2.2
        rw [GetConsensus_right heap f1 n r h hc1 hc2.1 hr1,
          GetConsensus_right heap f2 n r h hc1 hc2.1 hr1,
          ihr r hr1 f1 f2 h (by omega) (by omega)]
      · rw [GetConsensus_self heap f1 n h hc1 hc2, GetConsensus_self heap f2 n h hc1 hc2]

/-- The walk on a tree returns one of the tree's nodes. -/
theorem GetConsensus_mem {α : Type} (heap : α → Consensus.Params α) (n : α) (ns : List α)
    (ht : TreeAt heap n ns) :
    ∀ fuel h x, GetConsensus heap fuel n h = some x → x ∈ ns := by
  induction ht with
  | node n L R hl hr hln hrn hnL hnR hLR ihl ihr =>
    intro fuel h x hx
    cases fuel with
    | zero => simp [GetConsensus] at hx
    | succ f =>
      by_cases hc1 : h < (heap n).nHeightEffective ∧ (heap n).pLeft.isSome
      · obtain ⟨l, hl1⟩ := Option.isSome_iff_exists.mp hc1.2
        rw [GetConsensus_left heap f n l h hc1.1 hl1] at hx
        have := ihl l hl1 f h x hx
        simp [this]
      · by_cases hc2 : h > (heap n).nHeightEffective ∧ (heap n).pRight.isSome
        · obtain ⟨r, hr1⟩ := Option.isSome_iff_exists.mp hc2.2
          rw [GetConsensus_right heap f n r h hc1 hc2.1 hr1] at hx
          cases hc : GetConsensus heap f r h with
          | none => simp [hc] at hx
          | some c =>
            have hcR := ihr r hr1 f h c hc
            simp only [hc] at hx
            by_cases hle : (heap c).nHeightEffective ≤ h
            · simp [hle] at hx
              subst hx
              simp [hcR]
            · simp [hle] at hx
              simp [hx]
        · rw [GetConsensus_self heap f n h hc1 hc2] at hx
          simp at hx
          simp [hx]

/-- A result that is not yet effective at the target height is also the result at every
lower target height. -/
theorem GetConsensus_not_yet {α : Type} (heap : α → Consensus.Params α) :
    ∀ fuel n h1 h2 x, GetConsensus heap fuel n h2 = some x → h2 < (heap x).nHeightEffective →
      h1 ≤ h2 → GetConsensus heap fuel n h1 = some x := by
  intro fuel
  induction fuel with
  | zero => intro n h1 h2 x hx; simp [GetConsensus] at hx
  | succ f ih =>
    intro n h1 h2 x hx hgt hle
    by_cases hc1 : h2 < (heap n).nHeightEffective ∧ (heap n).pLeft.isSome
    · obtain ⟨l, hl1⟩ := Option.isSome_iff_exists.mp hc1.2
      rw [GetConsensus_left heap f n l h2 hc1.1 hl1] at hx
      rw [GetConsensus_left heap f n l h1 (by omega) hl1]
      exact ih l h1 h2 x hx hgt hle
    · by_cases hc2 : h2 > (heap n).nHeightEffective ∧ (heap n).pRight.isSome
      · obtain ⟨r, hr1⟩ := Option.isSome_iff_exists.mp hc2.2
        rw [GetConsensus_right heap f n r h2 hc1 hc2.1 hr1] at hx
        cases hc : GetConsensus heap f r h2 with
        | none => simp [hc] at hx
        | some c =>
          simp only [hc] at hx
          by_cases hle2 : (heap c).nHeightEffective ≤ h2
          · simp [hle2] at hx
            subst hx
            omega
          · simp [hle2] at hx
            subst hx
            omega
      · rw [GetConsensus_self heap f n h2 hc1 hc2] at hx
        simp at hx
        subst hx
        have hno : (heap n).pLeft.isSome = false := by
          cases hs : (heap n).pLeft.isSome with
          | false => rfl
          | true => exact absurd ⟨hgt, hs⟩ hc1
        exact GetConsensus_self heap f n h1 (by simp [hno]) (by omega)

/-- A leaf is a tree of one node. -/
theorem TreeAt_leaf {α : Type} (heap : α → Consensus.Params α) (n : α)
    (hl : (heap n).pLeft = none) (hr : (heap n).pRight = none) : TreeAt heap n [n] :=
  TreeAt.node n [] [] (fun l h => by simp [hl] at h) (fun r h => by simp [hr] at h)
    (fun _ => rfl) (fun _ => rfl) (by simp) (by simp) (by simp)

/-- The example heap is a tree under object 0, with nodes 0, 1, 2, 3. -/
theorem exampleHeap_tree : TreeAt exampleHeap 0 [0, 1, 2, 3] := by
  have h1 : TreeAt exampleHeap 1 [1] := TreeAt_leaf exampleHeap 1 rfl rfl
  have h3 : TreeAt exampleHeap 3 [3] := TreeAt_leaf exampleHeap 3 rfl rfl
  have h2 : TreeAt exampleHeap 2 [2, 3] :=
    TreeAt.node 2 [3] []
      (fun l h => by
        have hl : l = 3 := by simpa [exampleHeap, Consensus.Params.blank] using h.symm
        rw [hl]; exact h3)
      (fun r h => by simp [exampleHeap, Consensus.Params.blank] at h)
      (fun h => by simp [exampleHeap, Consensus.Params.blank] at h) (fun _ => rfl)
      (by simp) (by simp) (by simp)
  exact TreeAt.node 0 [1] [2, 3]
    (fun l h => by
      have hl : l = 1 := by simpa [exampleHeap, Consensus.Params.blank] using h.symm
      rw [hl]; exact h1)
    (fun r h => by
      have hr : r = 2 := by simpa [exampleHeap, Consensus.Params.blank] using h.symm
      rw [hr]; exact h2)
    (fun h => by simp [exampleHeap, Consensus.Params.blank] at h)
    (fun h => by simp [exampleHeap, Consensus.Params.blank] at h)
    (by simp) (by simp) (by simp)

/-- The example heap has depth 3 under object 0. -/
theorem exampleHeap_depth : DepthLe exampleHeap 0 3 := by
  have leaf : ∀ n d, (exampleHeap n).pLeft = none → (exampleHeap n).pRight = none →
      DepthLe exampleHeap n (d + 1) := fun n d hl hr =>
    DepthLe.node n d (fun l h => by simp [hl] at h) (fun r h => by simp [hr] at h)
  refine DepthLe.node 0 2 (fun l h => ?_) (fun r h => ?_)
  · have hl : l = 1 := by simpa [exampleHeap, Consensus.Params.blank] using h.symm
    rw [hl]; exact leaf 1 1 rfl rfl
  · have hr : r = 2 := by simpa [exampleHeap, Consensus.Params.blank] using h.symm
    rw [hr]
    refine DepthLe.node 2 1 (fun l h => ?_)
      (fun r h => by simp [exampleHeap, Consensus.Params.blank] at h)
    have hl : l = 3 := by simpa [exampleHeap, Consensus.Params.blank] using h.symm
    rw [hl]; exact leaf 3 0 rfl rfl

/-! ## The tree walk `GetConsensus` -/

/-- C1: for a node `n` of a finite acyclic parameter tree (depth at most `d`, recursion
budget at least `d`) and a height `h`, `GetConsensus` follows the three-step rule.
(1) If `h < n.nHeightEffective` and `n.pLeft` exists, the result is the result of the walk
from `n.pLeft`. (2) Otherwise, if `h > n.nHeightEffective` and `n.pRight` exists, the walk
from `n.pRight` returns a candidate `c`, and the result is `c` when
`c.nHeightEffective <= h` and `n` when it is not. (3) In every remaining case the result
is `n`. -/
theorem GetConsensus_three_step_rule {α : Type} (heap : α → Consensus.Params α) (n : α)
    (d fuel h : Nat) (hd : DepthLe heap n d) (hfuel : d ≤ fuel) :
    (∀ l, h < (heap n).nHeightEffective → (heap n).pLeft = some l →
      ∃ x, GetConsensus heap fuel l h = some x ∧ GetConsensus heap fuel n h = some x) ∧
    (∀ r, h > (heap n).nHeightEffective → (heap n).pRight = some r →
      ∃ c, GetConsensus heap fuel r h = some c ∧
        ((heap c).nHeightEffective ≤ h → GetConsensus heap fuel n h = some c) ∧
        (¬ (heap c).nHeightEffective ≤ h → GetConsensus heap fuel n h = some n)) ∧
    (¬ (h < (heap n).nHeightEffective ∧ (heap n).pLeft ≠ none) →
      ¬ (h > (heap n).nHeightEffective ∧ (heap n).pRight ≠ none) →
      GetConsensus heap fuel n h = some n) := by
  cases hd with
  | node n d hl hr =>
    obtain ⟨f, rfl⟩ : ∃ k, fuel = k + 1 := ⟨fuel - 1, by omega⟩
    have hf : d ≤ f := by omega
    refine ⟨fun l hlt hl1 => ?_, fun r hgt hr1 => ?_, fun h1 h2 => ?_⟩
    · obtain ⟨x, hx, _⟩ := GetConsensus_returns heap l d (hl l hl1) f h hf
      refine ⟨x, ?_, ?_⟩
      · rw [← hx]
        exact GetConsensus_fuel heap l d (hl l hl1) (f + 1) f h (by omega) hf
      · rw [GetConsensus_left heap f n l h hlt hl1, hx]
    · obtain ⟨c, hc, _⟩ := GetConsensus_returns heap r d (hr r hr1) f h hf
      have hnl : ¬ (h < (heap n).nHeightEffective ∧ (heap n).pLeft.isSome) :=
        fun hh => absurd hh.1 (by omega)
      have hstep := GetConsensus_right heap f n r h hnl hgt hr1
      rw [hc] at hstep
      refine ⟨c, ?_, fun hle => ?_, fun hle => ?_⟩
      · rw [← hc]
        exact GetConsensus_fuel heap r d (hr r hr1) (f + 1) f h (by omega) hf
      · rw [hstep]; simp [hle]
      · rw [hstep]; simp [hle]
    · refine GetConsensus_self heap f n h (fun hh => h1 ⟨hh.1, ?_⟩) (fun hh => h2 ⟨hh.1, ?_⟩)
      · exact Option.isSome_iff_ne_none.mp hh.2
      · exact Option.isSome_iff_ne_none.mp hh.2

/-- C1, evaluated on the example heap at its root and height 120: the walk from the
right child returns object 3, which is not yet effective (150 > 120), so the result is
the root. -/
theorem GetConsensus_three_step_rule_witness :
    ∃ c, GetConsensus exampleHeap 3 2 120 = some c ∧
      ((exampleHeap c).nHeightEffective ≤ 120 → GetConsensus exampleHeap 3 0 120 = some c) ∧
      (¬ (exampleHeap c).nHeightEffective ≤ 120 →
        GetConsensus exampleHeap 3 0 120 = some 0) :=
  (GetConsensus_three_step_rule exampleHeap 0 3 3 120 exampleHeap_depth
    (Nat.le_refl 3)).2.1 2 (by decide) rfl

/-- C2: on a finite acyclic parameter tree (depth at most `d`), for every height `h`, the
walk from `root` returns once the recursion budget covers the depth (one call per link
descended), and what it returns is `root` itself or a descendant of `root` reached
through `pLeft` / `pRight` links. -/
theorem GetConsensus_terminates {α : Type} (heap : α → Consensus.Params α) (root : α)
    (d fuel h : Nat) (hd : DepthLe heap root d) (hfuel : d ≤ fuel) :
    ∃ x, GetConsensus heap fuel root h = some x ∧ Reach heap root x :=
  GetConsensus_returns heap root d hd fuel h hfuel

/-- C2, evaluated on the example heap at the largest 32-bit height. -/
theorem GetConsensus_terminates_witness :
    ∃ x, GetConsensus exampleHeap 3 0 0xFFFFFFFF = some x ∧ Reach exampleHeap 0 x :=
  GetConsensus_terminates exampleHeap 0 3 3 0xFFFFFFFF exampleHeap_depth (Nat.le_refl 3)

/-- Contiguity, by induction on the tree. -/
theorem GetConsensus_interval {α : Type} (heap : α → Consensus.Params α) (n : α)
    (ns : List α) (ht : TreeAt heap n ns) :
    ∀ fuel h1 h h2 x, h1 < h → h < h2 → GetConsensus heap fuel n h1 = some x →
      GetConsensus heap fuel n h2 = some x → GetConsensus heap fuel n h = some x := by
  induction ht with
  | node n L R hl hr hln hrn hnL hnR hLR ihl ihr =>
    intro fuel h1 h h2 x h1h hh2 e1 e2
    cases fuel with
    | zero => simp [GetConsensus] at e1
    | succ f =>
      -- the part common to the cases where `h` and `h2` lie above the height of `n`
      have tail : (heap n).nHeightEffective < h →
          (h1 < (heap n).nHeightEffective → (heap n).pLeft = none) →
          GetConsensus heap (f + 1) n h = some x := by
        intro hgt hleft
        have hnl : ∀ k, (heap n).nHeightEffective < k →
            ¬ (k < (heap n).nHeightEffective ∧ (heap n).pLeft.isSome) :=
          fun k hk hh => absurd hh.1 (by omega)
        cases hr1 : (heap n).pRight with
        | none =>
          have hself : ∀ k, (heap n).nHeightEffective < k →
              GetConsensus heap (f + 1) n k = some n := fun k hk =>
            GetConsensus_self heap f n k (hnl k hk) (by simp [hr1])
          rw [hself h2 (by omega)] at e2
          rw [hself h hgt, e2]
        | some r =>
          rw [GetConsensus_right heap f n r h2 (hnl h2 (by omega)) (by omega) hr1] at e2
          rw [GetConsensus_right heap f n r h (hnl h hgt) hgt hr1]
          cases hc2 : GetConsensus heap f r h2 with
          | none => simp [hc2] at e2
          | some c2 =>
            simp only [hc2] at e2
            by_cases hle2 : (heap c2).nHeightEffective ≤ h2
            · -- the result is a node of the right branch
              simp [hle2] at e2
              subst e2
              have hcR : c2 ∈ R := GetConsensus_mem heap r R (hr r hr1) f h2 c2 hc2
              have hne : c2 ≠ n := fun e => hnR (e ▸ hcR)
              have h1gt : (heap n).nHeightEffective < h1 := by
                by_contra hcon
                have hself : GetConsensus heap (f + 1) n h1 = some n := by
                  refine GetConsensus_self heap f n h1 (fun hh => ?_) (fun hh => ?_)
                  · have := hleft hh.1
                    simp [this] at hh
                  · omega
                rw [hself] at e1
                exact hne (Option.some.inj e1).symm
              rw [GetConsensus_right heap f n r h1 (hnl h1 h1gt) h1gt hr1] at e1
              cases hc1 : GetConsensus heap f r h1 with
              | none => simp [hc1] at e1
              | some c1 =>
                simp only [hc1] at e1
                by_cases hle1 : (heap c1).nHeightEffective ≤ h1
                · simp [hle1] at e1
                  subst e1
                  have hmid := ihr r hr1 f h1 h h2 c1 h1h hh2 hc1 hc2
                  rw [hmid]
                  have : (heap c1).nHeightEffective ≤ h := by omega
                  simp [this]
                · simp [hle1] at e1
                  exact absurd e1.symm hne
            · -- the right branch is not yet effective at `h2`: the result is `n`
              simp [hle2] at e2
              subst e2
              have hmid := GetConsensus_not_yet heap f r h h2 c2 hc2 (by omega) (by omega)
              rw [hmid]
              have : ¬ (heap c2).nHeightEffective ≤ h := by omega
              simp [this]
      cases hl1 : (heap n).pLeft with
      | none =>
        by_cases hgt : (heap n).nHeightEffective < h
        · exact tail hgt (fun _ => hl1)
        · have hself : ∀ k, k ≤ (heap n).nHeightEffective →
              GetConsensus heap (f + 1) n k = some n := fun k hk =>
            GetConsensus_self heap f n k (by simp [hl1]) (fun hh => absurd hh.1 (by omega))
          rw [hself h1 (by omega)] at e1
          rw [hself h (by omega), e1]
      | some l =>
        by_cases hlt2 : h2 < (heap n).nHeightEffective
        · rw [GetConsensus_left heap f n l h1 (by omega) hl1] at e1
          rw [GetConsensus_left heap f n l h2 hlt2 hl1] at e2
          rw [GetConsensus_left heap f n l h (by omega) hl1]
          exact ihl l hl1 f h1 h h2 x h1h hh2 e1 e2
        · by_cases hlt1 : h1 < (heap n).nHeightEffective
          · -- `h1` goes left, `h2` does not: the results differ
            exfalso
            rw [GetConsensus_left heap f n l h1 hlt1 hl1] at e1
            have hxL : x ∈ L := GetConsensus_mem heap l L (hl l hl1) f h1 x e1
            have hnl2 : ¬ (h2 < (heap n).nHeightEffective ∧ (heap n).pLeft.isSome) :=
              fun hh => hlt2 hh.1
            by_cases hc2 : h2 > (heap n).nHeightEffective ∧ (heap n).pRight.isSome
            · obtain ⟨r, hr1⟩ := Option.isSome_iff_exists.mp hc2.2
              rw [GetConsensus_right heap f n r h2 hnl2 hc2.1 hr1] at e2
              cases hcc : GetConsensus heap f r h2 with
              | none => simp [hcc] at e2
              | some c2 =>
                simp only [hcc] at e2
                have hcR : c2 ∈ R := GetConsensus_mem heap r R (hr r hr1) f h2 c2 hcc
                by_cases hle2 : (heap c2).nHeightEffective ≤ h2
                · simp [hle2] at e2
                  subst e2
                  exact hLR c2 hxL hcR
                · simp [hle2] at e2
                  subst e2
                  exact hnL hxL
            · rw [GetConsensus_self heap f n h2 hnl2 hc2] at e2
              have := Option.some.inj e2
              subst this
              exact hnL hxL
          · exact tail (by omega) (fun hh => absurd hh hlt1)

/-- C3: activation ranges are contiguous. On a finite acyclic parameter tree (no ordering
of the heights assumed), for heights `h1 < h < h2`, if the walk from `root` returns the
same node `x` at `h1` and at `h2`, it returns `x` at `h` too: the heights at which a
given node is returned form an interval. -/
theorem GetConsensus_contiguous {α : Type} (heap : α → Consensus.Params α) (root : α)
    (ns : List α) (fuel h1 h h2 : Nat) (x : α) (ht : TreeAt heap root ns)
    (h1h : h1 < h) (hh2 : h < h2)
    (e1 : GetConsensus heap fuel root h1 = some x)
    (e2 : GetConsensus heap fuel root h2 = some x) :
    GetConsensus heap fuel root h = some x :=
  GetConsensus_interval heap root ns ht fuel h1 h h2 x h1h hh2 e1 e2

/-- C3, evaluated on the example heap: the root is returned at heights 100 and 149, and
at 120 between them. -/
theorem GetConsensus_contiguous_witness : GetConsensus exampleHeap 4 0 120 = some 0 :=
  GetConsensus_contiguous exampleHeap 0 [0, 1, 2, 3] 4 100 120 149 0 exampleHeap_tree
    (by decide) (by decide) (by decide) (by decide)

/-- Contiguity needs the tree shape: in `sharedHeap`, where one object is both the `pLeft`
and the `pRight` of the root, that object is returned at heights 5 and 25 and the root at
height 15 between them. -/
theorem sharedHeap_not_contiguous :
    GetConsensus sharedHeap 2 0 5 = some 1 ∧ GetConsensus sharedHeap 2 0 15 = some 0 ∧
      GetConsensus sharedHeap 2 0 25 = some 1 := by
  decide

/-- Below the height of a node whose `pLeft` is a leaf, the walk returns that leaf. -/
theorem GetConsensus_below {α : Type} (heap : α → Consensus.Params α) (root base : α)
    (fuel h : Nat) (hleft : (heap root).pLeft = some base)
    (hbl : (heap base).pLeft = none) (hbr : (heap base).pRight = none)
    (hlt : h < (heap root).nHeightEffective) (hfuel : 2 ≤ fuel) :
    GetConsensus heap fuel root h = some base := by
  obtain ⟨f, rfl⟩ : ∃ k, fuel = k + 2 := ⟨fuel - 2, by omega⟩
  rw [GetConsensus_left heap (f + 1) root base h hlt hleft]
  exact GetConsensus_self heap f base h (by simp [hbl]) (by simp [hbr])

/-- At the height of a node, the walk returns the node. -/
theorem GetConsensus_at {α : Type} (heap : α → Consensus.Params α) (n : α) (fuel : Nat)
    (hfuel : 1 ≤ fuel) : GetConsensus heap fuel n (heap n).nHeightEffective = some n := by
  obtain ⟨f, rfl⟩ : ∃ k, fuel = k + 1 := ⟨fuel - 1, by omega⟩
  exact GetConsensus_self heap f n _ (fun hh => absurd hh.1 (by omega))
    (fun hh => absurd hh.1 (by omega))

/-- C4 (as amended): in a tree whose root has the sentinel activation height `0xFFFFFFFF`
and whose `pLeft` is the base node, a leaf (whatever the `pRight` overlay is), the walk
from the root returns the base node, and not the root, for every height below the
sentinel. -/
theorem GetConsensus_sentinel_root {α : Type} (heap : α → Consensus.Params α)
    (root base : α) (fuel h : Nat)
    (hroot : (heap root).nHeightEffective = UINT32_MAX)
    (hleft : (heap root).pLeft = some base)
    (hbl : (heap base).pLeft = none) (hbr : (heap base).pRight = none)
    (hfuel : 2 ≤ fuel) (hh : h < UINT32_MAX) :
    GetConsensus heap fuel root h = some base ∧ base ≠ root := by
  refine ⟨GetConsensus_below heap root base fuel h hleft hbl hbr (by omega) hfuel, ?_⟩
  intro e
  rw [e, hleft] at hbl
  exact Option.noConfusion hbl

/-- C4 (as amended), evaluated on the tree of the main profile at height 0. -/
theorem GetConsensus_sentinel_root_witness :
    GetConsensus (CMainParams Env.zero).heap 2 .digishieldConsensus 0 = some .consensus ∧
      Member.consensus ≠ Member.digishieldConsensus :=
  GetConsensus_sentinel_root (CMainParams Env.zero).heap .digishieldConsensus .consensus 2 0
    rfl rfl rfl rfl (Nat.le_refl 2) (by decide)

/-- C4 as stated fails: the tree of the main profile is a 3-node tree whose root (the
alt-difficulty node) and whose overlay both have the sentinel activation height, with the
base and the overlay leaves, and at height 0 the walk from the root returns the base
node, not the root. -/
theorem GetConsensus_sentinel_root_counterexample :
    ((CMainParams Env.zero).heap .digishieldConsensus).nHeightEffective = 0xFFFFFFFF ∧
    ((CMainParams Env.zero).heap .digishieldConsensus).pLeft = some .consensus ∧
    ((CMainParams Env.zero).heap .digishieldConsensus).pRight = some .auxpowConsensus ∧
    ((CMainParams Env.zero).heap .auxpowConsensus).nHeightEffective = 0xFFFFFFFF ∧
    ((CMainParams Env.zero).heap .consensus).pLeft = none ∧
    ((CMainParams Env.zero).heap .consensus).pRight = none ∧
    ((CMainParams Env.zero).heap .auxpowConsensus).pLeft = none ∧
    ((CMainParams Env.zero).heap .auxpowConsensus).pRight = none ∧
    GetConsensus (CMainParams Env.zero).heap 3 .digishieldConsensus 0 = some .consensus ∧
    GetConsensus (CMainParams Env.zero).heap 3 .digishieldConsensus 0 ≠
      some .digishieldConsensus := by
  refine ⟨rfl, rfl, rfl, rfl, rfl, rfl, rfl, rfl, by decide, by decide⟩

/-- C5: in each of the three profiles as constructed (the default-constructed
`Consensus::Params` having null links), the tree root `pConsensusRoot` is the
alt-difficulty node with activation height `0xFFFFFFFF`; for every 32-bit height `h`
below it the walk from the root takes the `pLeft` branch and returns the base node
`consensus`, and it returns the root exactly at `h = 0xFFFFFFFF`. On main the base node
has coinbase maturity 90 and target timespan 1200 s, the root 70 and 60. -/
theorem profiles_resolve_to_base (env : Env) (hl : env.defaultParams.pLeft = none)
    (hr : env.defaultParams.pRight = none) (fuel h : Nat) (hfuel : 2 ≤ fuel)
    (h32 : h < 2 ^ 32) (p : CChainParams)
    (hp : p = CMainParams env ∨ p = CTestNetParams env ∨ p = CRegTestParams env) :
    (p.pConsensusRoot = some .digishieldConsensus ∧
      (h < 0xFFFFFFFF → GetConsensus p.heap fuel .digishieldConsensus h = some .consensus) ∧
      (GetConsensus p.heap fuel .digishieldConsensus h = some .digishieldConsensus ↔
        h = 0xFFFFFFFF)) ∧
    ((CMainParams env).consensus.nCoinbaseMaturity = 90 ∧
      (CMainParams env).consensus.nPowTargetTimespan = 1200 ∧
      (CMainParams env).digishieldConsensus.nCoinbaseMaturity = 70 ∧
      (CMainParams env).digishieldConsensus.nPowTargetTimespan = 60) := by
  have key : (p.heap .digishieldConsensus).nHeightEffective = 0xFFFFFFFF ∧
      (p.heap .digishieldConsensus).pLeft = some .consensus ∧
      (p.heap .consensus).pLeft = none ∧ (p.heap .consensus).pRight = none ∧
      p.pConsensusRoot = some .digishieldConsensus := by
    rcases hp with rfl | rfl | rfl
    · exact ⟨rfl, rfl, hl, hr, rfl⟩
    · exact ⟨rfl, rfl, hl, hr, rfl⟩
    · exact ⟨rfl, rfl, hl, hr, rfl⟩
  obtain ⟨hH, hleft, hbl, hbr, hroot⟩ := key
  have below : h < 0xFFFFFFFF →
      GetConsensus p.heap fuel .digishieldConsensus h = some .consensus := fun hlt =>
    GetConsensus_below p.heap .digishieldConsensus .consensus fuel h hleft hbl hbr
      (by omega) hfuel
  refine ⟨⟨hroot, below, ?_, ?_⟩, rfl, rfl, rfl, rfl⟩
  · intro e
    by_contra hne
    have hlt : h < 0xFFFFFFFF := by omega
    rw [below hlt] at e
    exact absurd e (by decide)
  · intro e
    have := GetConsensus_at p.heap .digishieldConsensus fuel (by omega)
    rw [hH] at this
    rw [e]
    exact this

/-- C5, evaluated on the regtest profile at height 1000000. -/
theorem profiles_resolve_to_base_witness :
    GetConsensus (CRegTestParams Env.zero).heap 2 .digishieldConsensus 1000000 =
      some .consensus :=
  ((profiles_resolve_to_base Env.zero rfl rfl 2 1000000 (Nat.le_refl 2) (by decide)
    (CRegTestParams Env.zero) (Or.inr (Or.inr rfl))).1.2.1) (by decide)

/-! ## The registry -/

/-- The three network names are told apart, and any other name is rejected with a message
naming it. -/
theorem Params_cases (chain : String) :
    (chain = "main" ∧ Params chain = .ok .mainParams) ∨
    (chain = "test" ∧ Params chain = .ok .testNetParams) ∨
    (chain = "regtest" ∧ Params chain = .ok .regTestParams) ∨
    (chain ≠ "main" ∧ chain ≠ "test" ∧ chain ≠ "regtest" ∧
      Params chain = .error ("Params: Unknown chain " ++ chain ++ ".")) := by
  by_cases h1 : chain = "main"
  · subst h1; exact Or.inl ⟨rfl, rfl⟩
  · by_cases h2 : chain = "test"
    · subst h2; exact Or.inr (Or.inl ⟨rfl, rfl⟩)
    · by_cases h3 : chain = "regtest"
      · subst h3; exact Or.inr (Or.inr (Or.inl ⟨rfl, rfl⟩))
      · refine Or.inr (Or.inr (Or.inr ⟨h1, h2, h3, ?_⟩))
        simp [Params, CBaseChainParams.MAIN, CBaseChainParams.TESTNET,
          CBaseChainParams.REGTEST, h1, h2, h3]

/-- C6: `Params(chain)` returns the main profile for "main", the test profile for "test",
the regtest profile for "regtest", and throws the unknown-chain error (naming the chain) if
and only if `chain` is none of the three; it never defaults to a profile: whenever it
returns a profile, `chain` is that profile's name. -/
theorem Params_by_name :
    Params "main" = .ok .mainParams ∧
    Params "test" = .ok .testNetParams ∧
    Params "regtest" = .ok .regTestParams ∧
    (∀ chain : String, (∃ e, Params chain = .error e) ↔
      (chain ≠ "main" ∧ chain ≠ "test" ∧ chain ≠ "regtest")) ∧
    (∀ chain : String, chain ≠ "main" → chain ≠ "test" → chain ≠ "regtest" →
      Params chain = .error ("Params: Unknown chain " ++ chain ++ ".")) ∧
    (∀ (chain : String) (p : ProfileRef), Params chain = .ok p →
      (chain = "main" ∧ p = .mainParams) ∨ (chain = "test" ∧ p = .testNetParams) ∨
        (chain = "regtest" ∧ p = .regTestParams)) := by
  refine ⟨rfl, rfl, rfl, fun chain => ⟨?_, ?_⟩, ?_, ?_⟩
  · rintro ⟨e, he⟩
    rcases Params_cases chain with ⟨_, h⟩ | ⟨_, h⟩ | ⟨_, h⟩ | ⟨h1, h2, h3, _⟩
    · rw [h] at he; exact Except.noConfusion he
    · rw [h] at he; exact Except.noConfusion he
    · rw [h] at he; exact Except.noConfusion he
    · exact ⟨h1, h2, h3⟩
  · rintro ⟨h1, h2, h3⟩
    rcases Params_cases chain with ⟨h, _⟩ | ⟨h, _⟩ | ⟨h, _⟩ | ⟨_, _, _, h⟩
    · exact absurd h h1
    · exact absurd h h2
    · exact absurd h h3
    · exact ⟨_, h⟩
  · intro chain h1 h2 h3
    rcases Params_cases chain with ⟨h, _⟩ | ⟨h, _⟩ | ⟨h, _⟩ | ⟨_, _, _, h⟩
    · exact absurd h h1
    · exact absurd h h2
    · exact absurd h h3
    · exact h
  · intro chain p hp
    rcases Params_cases chain with ⟨hc, h⟩ | ⟨hc, h⟩ | ⟨hc, h⟩ | ⟨_, _, _, h⟩
    · rw [h] at hp; exact Or.inl ⟨hc, (Except.ok.inj hp).symm⟩
    · rw [h] at hp; exact Or.inr (Or.inl ⟨hc, (Except.ok.inj hp).symm⟩)
    · rw [h] at hp; exact Or.inr (Or.inr ⟨hc, (Except.ok.inj hp).symm⟩)
    · rw [h] at hp; exact Except.noConfusion hp

/-- What one `SelectParams` call does to `pCurrentParams`: it is assigned the profile of
`network` when the call returns, and left as it was when the call throws. -/
theorem SelectParams_effect {β : Type} (sb : BaseSelector β) (network : String)
    (g : Globals β) :
    ((SelectParams sb network g).2 = none ∧
      ∃ p, Params network = .ok p ∧ (SelectParams sb network g).1.pCurrentParams = some p) ∨
    ((SelectParams sb network g).2 ≠ none ∧
      (SelectParams sb network g).1.pCurrentParams = g.pCurrentParams) := by
  unfold SelectParams
  rcases hsb : sb network g.base with ⟨b, _ | e⟩
  · cases hp : Params network with
    | error e => right; simp
    | ok p => left; simp
  · right; simp

/-- C7: `SelectParams` is atomic on failure. For every state of the globals (active
profile unset or set) and every network name other than "main", "test", "regtest",
whatever `SelectBaseParams` does, `SelectParams(name)` throws and leaves `pCurrentParams`
(and the three profile objects) exactly as before the call. -/
theorem SelectParams_unknown {β : Type} (sb : BaseSelector β) (network : String)
    (g : Globals β) (h1 : network ≠ "main") (h2 : network ≠ "test")
    (h3 : network ≠ "regtest") :
    (SelectParams sb network g).2 ≠ none ∧
    (SelectParams sb network g).1.pCurrentParams = g.pCurrentParams ∧
    (SelectParams sb network g).1.mainParams = g.mainParams ∧
    (SelectParams sb network g).1.testNetParams = g.testNetParams ∧
    (SelectParams sb network g).1.regTestParams = g.regTestParams := by
  have herr : Params network = .error ("Params: Unknown chain " ++ network ++ ".") := by
    rcases Params_cases network with ⟨h, _⟩ | ⟨h, _⟩ | ⟨h, _⟩ | ⟨_, _, _, h⟩
    · exact absurd h h1
    · exact absurd h h2
    · exact absurd h h3
    · exact h
  unfold SelectParams
  rcases hsb : sb network g.base with ⟨b, _ | e⟩
  · simp [herr]
  · simp

/-- C7, evaluated: with the main profile active, `SelectParams("bogus")` throws and the
main profile stays active. -/
theorem SelectParams_unknown_witness :
    (SelectParams SelectBaseParams "bogus"
        (SelectParams SelectBaseParams "main" (Globals.init Env.zero none)).1).2 ≠ none ∧
    (SelectParams SelectBaseParams "bogus"
        (SelectParams SelectBaseParams "main" (Globals.init Env.zero none)).1).1.pCurrentParams
      = some .mainParams :=
  have h := SelectParams_unknown SelectBaseParams "bogus"
    (SelectParams SelectBaseParams "main" (Globals.init Env.zero none)).1
    (by decide) (by decide) (by decide)
  ⟨h.1, h.2.1.trans (by decide)⟩

/-- Every `SelectParams` call of a run that returned named a network `Params` knows. -/
theorem succeeded_known {β : Type} (sb : BaseSelector β) (calls : List RegistryCall) :
    ∀ (g : Globals β) (name : String), name ∈ succeeded sb calls g →
      ∃ p, Params name = .ok p := by
  induction calls with
  | nil => intro g name h; simp [succeeded] at h
  | cons c rest ih =>
    intro g name h
    cases c with
    | Params => exact ih g name (by simpa [succeeded] using h)
    | SelectParams network =>
      simp only [succeeded, List.mem_append] at h
      rcases h with h | h
      · rcases SelectParams_effect sb network g with ⟨_, p, hp, _⟩ | ⟨hne, _⟩
        · by_cases hs : (SelectParams sb network g).2 = none
          · simp [hs] at h
            exact ⟨p, h ▸ hp⟩
          · simp [hs] at h
        · simp [hne] at h
      · exact ih _ name h

/-- The active profile after a run: each `SelectParams` call that returned overrides it
with the profile of its network; nothing else changes it. -/
theorem run_pCurrentParams {β : Type} (sb : BaseSelector β) (calls : List RegistryCall) :
    ∀ g : Globals β, (run sb calls g).pCurrentParams =
      (succeeded sb calls g).foldl (fun _ name => (Params name).toOption)
        g.pCurrentParams := by
  induction calls with
  | nil => intro g; rfl
  | cons c rest ih =>
    intro g
    cases c with
    | Params => simpa [run, succeeded, RegistryCall.step] using ih g
    | SelectParams network =>
      simp only [run, succeeded, RegistryCall.step, List.foldl_append]
      rw [ih]
      rcases SelectParams_effect sb network g with ⟨hs, p, hp, hcur⟩ | ⟨hne, hcur⟩
      · simp [hs, hcur, hp, Except.toOption]
      · simp [hne, hcur]

/-- The active profile after a run, read off the last `SelectParams` call that returned. -/
theorem run_last {β : Type} (sb : BaseSelector β) (calls : List RegistryCall)
    (g : Globals β) :
    (succeeded sb calls g = [] → (run sb calls g).pCurrentParams = g.pCurrentParams) ∧
    (∀ name, (succeeded sb calls g).getLast? = some name →
      ∃ p, Params name = .ok p ∧ (run sb calls g).pCurrentParams = some p) := by
  refine ⟨fun h => by rw [run_pCurrentParams, h]; rfl, fun name h => ?_⟩
  obtain ⟨p, hp⟩ := succeeded_known sb calls g name (List.mem_of_getLast?_eq_some h)
  refine ⟨p, hp, ?_⟩
  rw [run_pCurrentParams]
  obtain ⟨l, hl⟩ : ∃ l, succeeded sb calls g = l ++ [name] := by
    rcases List.eq_nil_or_concat (succeeded sb calls g) with h0 | ⟨l, a, hla⟩
    · rw [h0] at h; simp at h
    · rw [List.concat_eq_append] at hla
      rw [hla, List.getLast?_concat] at h
      exact ⟨l, by rw [hla, Option.some.inj h]⟩
  rw [hl, List.foldl_append]
  simp [hp, Except.toOption]

/-- C8: `Params()` hits its assertion exactly when no `SelectParams` call has returned yet,
and otherwise returns the profile chosen by the most recent `SelectParams(name)` that
returned, which is the profile `Params(name)` returns. -/
theorem Params_active {β : Type} (sb : BaseSelector β) (env : Env) (b : β)
    (calls : List RegistryCall) :
    (ParamsCurrent (run sb calls (Globals.init env b)) = none ↔
      succeeded sb calls (Globals.init env b) = []) ∧
    (∀ name, (succeeded sb calls (Globals.init env b)).getLast? = some name →
      ∃ p, Params name = .ok p ∧
        ParamsCurrent (run sb calls (Globals.init env b)) = some p) := by
  have hcur : ∀ g : Globals β, ParamsCurrent g = g.pCurrentParams := by
    intro g; unfold ParamsCurrent; cases g.pCurrentParams <;> rfl
  obtain ⟨h0, h1⟩ := run_last sb calls (Globals.init env b)
  refine ⟨⟨fun hnone => ?_, fun hnil => ?_⟩, fun name h => ?_⟩
  · by_contra hne
    obtain ⟨name, hname⟩ : ∃ name, (succeeded sb calls (Globals.init env b)).getLast? =
        some name := by
      cases hl : (succeeded sb calls (Globals.init env b)).getLast? with
      | none => exact absurd (List.getLast?_eq_none_iff.mp hl) hne
      | some name => exact ⟨name, rfl⟩
    obtain ⟨p, _, hp⟩ := h1 name hname
    rw [hcur, hp] at hnone
    exact Option.noConfusion hnone
  · rw [hcur, h0 hnil]; rfl
  · obtain ⟨p, hp, hrun⟩ := h1 name h
    exact ⟨p, hp, by rw [hcur, hrun]⟩

/-- C9 (as amended): the registry never returns to unset, and the active profile is the
one of the most recent `SelectParams` call that returned. From globals where profile `X`
is active, after any sequence of `SelectParams` calls (with any names) and `Params()`
reads: a profile is still active; it is `X` when none of the `SelectParams` calls
returned; and otherwise it is the profile of the last `SelectParams(name)` that returned,
`Params(name)`. -/
theorem registry_transitions {β : Type} (sb : BaseSelector β) (g : Globals β)
    (X : ProfileRef) (calls : List RegistryCall) (hset : g.pCurrentParams = some X) :
    (run sb calls g).pCurrentParams ≠ none ∧
    (succeeded sb calls g = [] → (run sb calls g).pCurrentParams = some X) ∧
    (∀ name, (succeeded sb calls g).getLast? = some name →
      ∃ p, Params name = .ok p ∧ (run sb calls g).pCurrentParams = some p) := by
  obtain ⟨h0, h1⟩ := run_last sb calls g
  refine ⟨?_, fun hnil => by rw [h0 hnil, hset], h1⟩
  cases hl : (succeeded sb calls g).getLast? with
  | none =>
    rw [h0 (List.getLast?_eq_none_iff.mp hl), hset]
    exact Option.noConfusion
  | some name =>
    obtain ⟨p, _, hp⟩ := h1 name hl
    rw [hp]
    exact Option.noConfusion

/-- C9 (as amended), evaluated: with the main profile active, a failed
`SelectParams("bogus")` and a `Params()` read leave the main profile active. -/
theorem registry_transitions_witness :
    (run SelectBaseParams [.SelectParams "bogus", .Params]
      (SelectParams SelectBaseParams "main" (Globals.init Env.zero none)).1).pCurrentParams
      = some .mainParams :=
  (registry_transitions SelectBaseParams
    (SelectParams SelectBaseParams "main" (Globals.init Env.zero none)).1 .mainParams
    [.SelectParams "bogus", .Params] (by decide)).2.1 (by decide)

/-- C9 as stated fails: `SelectParams("main")` returns and makes the main profile active;
a later `SelectParams("test")` makes the test profile active, a profile other than
main. -/
theorem registry_set_once_counterexample :
    (SelectParams SelectBaseParams "main" (Globals.init Env.zero none)).2 = none ∧
    ParamsCurrent (SelectParams SelectBaseParams "main" (Globals.init Env.zero none)).1
      = some .mainParams ∧
    ParamsCurrent (run SelectBaseParams [.SelectParams "test"]
        (SelectParams SelectBaseParams "main" (Globals.init Env.zero none)).1)
      = some .testNetParams ∧
    ProfileRef.testNetParams ≠ ProfileRef.mainParams := by
  refine ⟨by decide, by decide, by decide, by decide⟩

/-! ## Network-identifying data -/

/-- C10: the 4-byte network magic `pchMessageStart` is pairwise distinct across the main,
test and regtest profiles. -/
theorem pchMessageStart_distinct (env : Env) :
    (CMainParams env).pchMessageStart ≠ (CTestNetParams env).pchMessageStart ∧
    (CMainParams env).pchMessageStart ≠ (CRegTestParams env).pchMessageStart ∧
    (CTestNetParams env).pchMessageStart ≠ (CRegTestParams env).pchMessageStart ∧
    (CMainParams env).pchMessageStart.length = 4 ∧
    (CTestNetParams env).pchMessageStart.length = 4 ∧
    (CRegTestParams env).pchMessageStart.length = 4 := by
  have hm : (CMainParams env).pchMessageStart = [0xfb, 0xc0, 0xb6, 0xdb] := rfl
  have ht : (CTestNetParams env).pchMessageStart = [0xfc, 0xc1, 0xb7, 0xdc] := rfl
  have hr : (CRegTestParams env).pchMessageStart = [0xc0, 0xc0, 0xc0, 0xc0] := rfl
  rw [hm, ht, hr]
  decide

/-- C11 (as amended): the default P2P port of the main profile, 9917, differs from that of
the test and regtest profiles, which share the default port 19917. -/
theorem nDefaultPort_profiles (env : Env) :
    (CMainParams env).nDefaultPort = 9917 ∧
    (CTestNetParams env).nDefaultPort = 19917 ∧
    (CRegTestParams env).nDefaultPort = 19917 ∧
    (CMainParams env).nDefaultPort ≠ (CTestNetParams env).nDefaultPort ∧
    (CMainParams env).nDefaultPort ≠ (CRegTestParams env).nDefaultPort ∧
    (CTestNetParams env).nDefaultPort = (CRegTestParams env).nDefaultPort := by
  have hm : (CMainParams env).nDefaultPort = 9917 := rfl
  have ht : (CTestNetParams env).nDefaultPort = 19917 := rfl
  have hr : (CRegTestParams env).nDefaultPort = 19917 := rfl
  refine ⟨hm, ht, hr, fun e => ?_, fun e => ?_, ht.trans hr.symm⟩
  · exact absurd (hm.symm.trans (e.trans ht)) (by decide)
  · exact absurd (hm.symm.trans (e.trans hr)) (by decide)

/-- C11 as stated fails: the test and regtest profiles, two different networks, have the
same default port. -/
theorem nDefaultPort_counterexample :
    (CTestNetParams Env.zero).strNetworkID ≠ (CRegTestParams Env.zero).strNetworkID ∧
    (CTestNetParams Env.zero).nDefaultPort = (CRegTestParams Env.zero).nDefaultPort := by
  have hn : (CTestNetParams Env.zero).strNetworkID = "test" := rfl
  have hn2 : (CRegTestParams Env.zero).strNetworkID = "regtest" := rfl
  have ht : (CTestNetParams Env.zero).nDefaultPort = 19917 := rfl
  have hr : (CRegTestParams Env.zero).nDefaultPort = 19917 := rfl
  refine ⟨fun e => ?_, ht.trans hr.symm⟩
  exact absurd (hn.symm.trans (e.trans hn2)) (by decide)

/-- C12 (as amended): the address-prefix table of the main profile differs from those of
the test and regtest profiles (in the secret-key prefix, 176 against 153, and in both
extended-key prefixes; the pubkey-address and script-address prefixes are 47 and 5 on all
three), and the test and regtest profiles have the same table. -/
theorem base58Prefixes_profiles (env : Env) :
    (CMainParams env).base58Prefixes ≠ (CTestNetParams env).base58Prefixes ∧
    (CMainParams env).base58Prefixes ≠ (CRegTestParams env).base58Prefixes ∧
    (CTestNetParams env).base58Prefixes = (CRegTestParams env).base58Prefixes ∧
    (∀ p, p = CMainParams env ∨ p = CTestNetParams env ∨ p = CRegTestParams env →
      p.base58Prefixes .PUBKEY_ADDRESS = [47] ∧ p.base58Prefixes .SCRIPT_ADDRESS = [5]) ∧
    (CMainParams env).base58Prefixes .SECRET_KEY = [176] ∧
    (CMainParams env).base58Prefixes .EXT_PUBLIC_KEY = [0x04, 0x88, 0xB2, 0x1E] ∧
    (CMainParams env).base58Prefixes .EXT_SECRET_KEY = [0x04, 0x88, 0xAD, 0xE4] ∧
    (CTestNetParams env).base58Prefixes .SECRET_KEY = [153] ∧
    (CTestNetParams env).base58Prefixes .EXT_PUBLIC_KEY = [0x02, 0xfa, 0xca, 0xfd] ∧
    (CTestNetParams env).base58Prefixes .EXT_SECRET_KEY = [0x02, 0xfa, 0xc3, 0x98] := by
  have hm : (CMainParams env).base58Prefixes .SECRET_KEY = [176] := rfl
  have ht : (CTestNetParams env).base58Prefixes .SECRET_KEY = [153] := rfl
  have hr : (CRegTestParams env).base58Prefixes .SECRET_KEY = [153] := rfl
  have htab : ∀ t, (CTestNetParams env).base58Prefixes t = (CRegTestParams env).base58Prefixes t := by
    intro t
    cases t
    · exact (rfl : (CTestNetParams env).base58Prefixes .PUBKEY_ADDRESS = [47]).trans
        (rfl : (CRegTestParams env).base58Prefixes .PUBKEY_ADDRESS = [47]).symm
    · exact (rfl : (CTestNetParams env).base58Prefixes .SCRIPT_ADDRESS = [5]).trans
        (rfl : (CRegTestParams env).base58Prefixes .SCRIPT_ADDRESS = [5]).symm
    · exact ht.trans hr.symm
    · exact (rfl : (CTestNetParams env).base58Prefixes .EXT_PUBLIC_KEY =
          [0x02, 0xfa, 0xca, 0xfd]).trans
        (rfl : (CRegTestParams env).base58Prefixes .EXT_PUBLIC_KEY =
          [0x02, 0xfa, 0xca, 0xfd]).symm
    · exact (rfl : (CTestNetParams env).base58Prefixes .EXT_SECRET_KEY =
          [0x02, 0xfa, 0xc3, 0x98]).trans
        (rfl : (CRegTestParams env).base58Prefixes .EXT_SECRET_KEY =
          [0x02, 0xfa, 0xc3, 0x98]).symm
  refine ⟨fun e => ?_, fun e => ?_, funext htab, ?_, rfl, rfl, rfl, rfl, rfl, rfl⟩
  · have := congrFun e .SECRET_KEY
    rw [hm, ht] at this
    exact absurd this (by decide)
  · have := congrFun e .SECRET_KEY
    rw [hm, hr] at this
    exact absurd this (by decide)
  · rintro p (rfl | rfl | rfl) <;> exact ⟨rfl, rfl⟩

/-- C12 as stated fails: the test and regtest profiles, two different networks, have the
same address-prefix table. -/
theorem base58Prefixes_counterexample :
    (CTestNetParams Env.zero).strNetworkID ≠ (CRegTestParams Env.zero).strNetworkID ∧
    (CTestNetParams Env.zero).base58Prefixes = (CRegTestParams Env.zero).base58Prefixes := by
  have hn : (CTestNetParams Env.zero).strNetworkID = "test" := rfl
  have hn2 : (CRegTestParams Env.zero).strNetworkID = "regtest" := rfl
  refine ⟨fun e => absurd (hn.symm.trans (e.trans hn2)) (by decide), funext fun t => ?_⟩
  cases t
  · exact (rfl : (CTestNetParams Env.zero).base58Prefixes .PUBKEY_ADDRESS = [47]).trans
      (rfl : (CRegTestParams Env.zero).base58Prefixes .PUBKEY_ADDRESS = [47]).symm
  · exact (rfl : (CTestNetParams Env.zero).base58Prefixes .SCRIPT_ADDRESS = [5]).trans
      (rfl : (CRegTestParams Env.zero).base58Prefixes .SCRIPT_ADDRESS = [5]).symm
  · exact (rfl : (CTestNetParams Env.zero).base58Prefixes .SECRET_KEY = [153]).trans
      (rfl : (CRegTestParams Env.zero).base58Prefixes .SECRET_KEY = [153]).symm
  · exact (rfl : (CTestNetParams Env.zero).base58Prefixes .EXT_PUBLIC_KEY =
        [0x02, 0xfa, 0xca, 0xfd]).trans
      (rfl : (CRegTestParams Env.zero).base58Prefixes .EXT_PUBLIC_KEY =
        [0x02, 0xfa, 0xca, 0xfd]).symm
  · exact (rfl : (CTestNetParams Env.zero).base58Prefixes .EXT_SECRET_KEY =
        [0x02, 0xfa, 0xc3, 0x98]).trans
      (rfl : (CRegTestParams Env.zero).base58Prefixes .EXT_SECRET_KEY =
        [0x02, 0xfa, 0xc3, 0x98]).symm

/-! ## Genesis block -/

/-- C14: for all inputs, `CreateGenesisBlock` returns a block whose version, timestamp,
bits and nonce are the supplied values, whose previous-block hash is null, and which holds
exactly one transaction, of version 1, with exactly one input (carrying the message in its
script) and exactly one output, of value `genesisReward` and script `genesisOutputScript`. -/
theorem CreateGenesisBlock_fields (env : Env) (pszTimestamp : String)
    (genesisOutputScript : CScript) (nTime nNonce nBits : Nat) (nVersion genesisReward : Int) :
    (CreateGenesisBlock env pszTimestamp genesisOutputScript nTime nNonce nBits nVersion
      genesisReward).nVersion = nVersion ∧
    (CreateGenesisBlock env pszTimestamp genesisOutputScript nTime nNonce nBits nVersion
      genesisReward).nTime = nTime ∧
    (CreateGenesisBlock env pszTimestamp genesisOutputScript nTime nNonce nBits nVersion
      genesisReward).nBits = nBits ∧
    (CreateGenesisBlock env pszTimestamp genesisOutputScript nTime nNonce nBits nVersion
      genesisReward).nNonce = nNonce ∧
    (CreateGenesisBlock env pszTimestamp genesisOutputScript nTime nNonce nBits nVersion
      genesisReward).hashPrevBlock = 0 ∧
    ∃ tx txin txout,
      (CreateGenesisBlock env pszTimestamp genesisOutputScript nTime nNonce nBits nVersion
        genesisReward).vtx = [tx] ∧
      tx.nVersion = 1 ∧ tx.vin = [txin] ∧ tx.vout = [txout] ∧
      txin.scriptSig = [.pushInt 486604799, .pushScriptNum 4, .pushBytes pszTimestamp] ∧
      txout.nValue = genesisReward ∧ txout.scriptPubKey = genesisOutputScript :=
  ⟨rfl, rfl, rfl, rfl, rfl, _, _, _, rfl, rfl, rfl, rfl, rfl, rfl, rfl⟩

/-! ## Checkpoints -/

/-- C16: for each of the three profiles, the heights of the literal checkpoint table, in
the order written, are strictly ascending, and no height occurs twice. -/
theorem checkpointData_ascending (env : Env) :
    (((CMainParams env).checkpointData.map Prod.fst).Pairwise (fun a b => a < b) ∧
      ((CMainParams env).checkpointData.map Prod.fst).Nodup) ∧
    (((CTestNetParams env).checkpointData.map Prod.fst).Pairwise (fun a b => a < b) ∧
      ((CTestNetParams env).checkpointData.map Prod.fst).Nodup) ∧
    (((CRegTestParams env).checkpointData.map Prod.fst).Pairwise (fun a b => a < b) ∧
      ((CRegTestParams env).checkpointData.map Prod.fst).Nodup) := by
  have hm : (CMainParams env).checkpointData.map Prod.fst =
      [0, 1, 53, 117, 200, 6452, 10978, 17954, 23978, 33212, 45527, 57484, 69240, 73892,
        168312, 170421, 170924, 172330, 173502] := rfl
  have ht : (CTestNetParams env).checkpointData.map Prod.fst = [0] := rfl
  have hr : (CRegTestParams env).checkpointData.map Prod.fst = [0] := rfl
  refine ⟨?_, ?_, ?_⟩
  · rw [hm]; decide
  · rw [ht]; decide
  · rw [hr]; decide

/-! ## Genesis hash in the tree, and the regtest override -/

/-- From a root whose two children are leaves, only the root and the two children are
reachable. -/
theorem Reach_three {α : Type} (heap : α → Consensus.Params α) (root a b m : α)
    (hl : (heap root).pLeft = some a) (hr : (heap root).pRight = some b)
    (hal : (heap a).pLeft = none) (har : (heap a).pRight = none)
    (hbl : (heap b).pLeft = none) (hbr : (heap b).pRight = none)
    (hm : Reach heap root m) : m = root ∨ m = a ∨ m = b := by
  have leaf : ∀ n x, (heap n).pLeft = none → (heap n).pRight = none → Reach heap n x →
      x = n := by
    intro n x h1 h2 hx
    cases hx with
    | self => rfl
    | viaLeft _ l _ e _ => rw [h1] at e; exact Option.noConfusion e
    | viaRight _ r _ e _ => rw [h2] at e; exact Option.noConfusion e
  cases hm with
  | self => exact Or.inl rfl
  | viaLeft _ l _ e hx =>
    rw [hl] at e
    have : l = a := (Option.some.inj e).symm
    subst this
    exact Or.inr (Or.inl (leaf l m hal har hx))
  | viaRight _ r _ e hx =>
    rw [hr] at e
    have : r = b := (Option.some.inj e).symm
    subst this
    exact Or.inr (Or.inr (leaf r m hbl hbr hx))

/-- Whatever the budget, a node the walk returns is the start node or a descendant. -/
theorem GetConsensus_reach {α : Type} (heap : α → Consensus.Params α) :
    ∀ fuel n h x, GetConsensus heap fuel n h = some x → Reach heap n x := by
  intro fuel
  induction fuel with
  | zero => intro n h x hx; simp [GetConsensus] at hx
  | succ f ih =>
    intro n h x hx
    by_cases hc1 : h < (heap n).nHeightEffective ∧ (heap n).pLeft.isSome
    · obtain ⟨l, hl1⟩ := Option.isSome_iff_exists.mp hc1.2
      rw [GetConsensus_left heap f n l h hc1.1 hl1] at hx
      exact Reach.viaLeft n l x hl1 (ih l h x hx)
    · by_cases hc2 : h > (heap n).nHeightEffective ∧ (heap n).pRight.isSome
      · obtain ⟨r, hr1⟩ := Option.isSome_iff_exists.mp hc2.2
        rw [GetConsensus_right heap f n r h hc1 hc2.1 hr1] at hx
        cases hc : GetConsensus heap f r h with
        | none => simp [hc] at hx
        | some c =>
          simp only [hc] at hx
          by_cases hle : (heap c).nHeightEffective ≤ h
          · simp [hle] at hx
            subst hx
            exact Reach.viaRight n r c hr1 (ih r h c hc)
          · simp [hle] at hx
            subst hx
            exact Reach.self n
      · rw [GetConsensus_self heap f n h hc1 hc2] at hx
        rw [← Option.some.inj hx]
        exact Reach.self n

/-- C15: in each of the three profiles after construction (the default-constructed
`Consensus::Params` having null links), every node reachable from the tree root
`pConsensusRoot` through `pLeft` / `pRight` links, hence every node the walk from the root
returns at any height, has `hashGenesisBlock` equal to the hash of the profile's genesis
block. -/
theorem hashGenesisBlock_propagated (env : Env) (hl : env.defaultParams.pLeft = none)
    (hr : env.defaultParams.pRight = none) (p : CChainParams)
    (hp : p = CMainParams env ∨ p = CTestNetParams env ∨ p = CRegTestParams env) :
    p.pConsensusRoot = some .digishieldConsensus ∧
    (∀ m, Reach p.heap .digishieldConsensus m →
      (p.heap m).hashGenesisBlock = env.GetHash p.genesis) ∧
    (∀ fuel h x, GetConsensus p.heap fuel .digishieldConsensus h = some x →
      (p.heap x).hashGenesisBlock = env.GetHash p.genesis) := by
  have key : p.pConsensusRoot = some .digishieldConsensus ∧
      (p.heap .digishieldConsensus).pLeft = some .consensus ∧
      (p.heap .digishieldConsensus).pRight = some .auxpowConsensus ∧
      (p.heap .consensus).pLeft = none ∧ (p.heap .consensus).pRight = none ∧
      (p.heap .auxpowConsensus).pLeft = none ∧ (p.heap .auxpowConsensus).pRight = none ∧
      (p.heap .digishieldConsensus).hashGenesisBlock = env.GetHash p.genesis ∧
      (p.heap .consensus).hashGenesisBlock = env.GetHash p.genesis ∧
      (p.heap .auxpowConsensus).hashGenesisBlock = env.GetHash p.genesis := by
    rcases hp with rfl | rfl | rfl
    · exact ⟨rfl, rfl, rfl, hl, hr, hl, hr, rfl, rfl, rfl⟩
    · exact ⟨rfl, rfl, rfl, hl, hr, hl, hr, rfl, rfl, rfl⟩
    · exact ⟨rfl, rfl, rfl, hl, hr, hl, hr, rfl, rfl, rfl⟩
  obtain ⟨hroot, hL, hR, hcl, hcr, hal, har, hd, hc, ha⟩ := key
  have reach : ∀ m, Reach p.heap .digishieldConsensus m →
      (p.heap m).hashGenesisBlock = env.GetHash p.genesis := by
    intro m hm
    rcases Reach_three p.heap .digishieldConsensus .consensus .auxpowConsensus m hL hR
      hcl hcr hal har hm with rfl | rfl | rfl
    · exact hd
    · exact hc
    · exact ha
  exact ⟨hroot, reach, fun fuel h x hx =>
    reach x (GetConsensus_reach p.heap fuel .digishieldConsensus h x hx)⟩

/-- C15, evaluated on the test profile: the walk from the root at height 7 returns the
base node, whose `hashGenesisBlock` is the hash of the genesis block. -/
theorem hashGenesisBlock_propagated_witness :
    ((CTestNetParams Env.zero).heap .consensus).hashGenesisBlock =
      Env.zero.GetHash (CTestNetParams Env.zero).genesis :=
  (hashGenesisBlock_propagated Env.zero rfl rfl (CTestNetParams Env.zero)
    (Or.inr (Or.inl rfl))).2.2 2 7 .consensus (by decide)

/-- C17: `UpdateRegtestBIP9Parameters(d, nStartTime, nTimeout)` sets the start time and the
timeout of deployment `d` in the regtest base node `consensus` to the given values and
changes nothing else: the bit of `d`, every other deployment, every other field of the base
node (its links among them), the other nodes and every other member of the regtest
profile, the main and test profiles and `pCurrentParams` are as before. -/
theorem UpdateRegtestBIP9Parameters_frame {β : Type} (g : Globals β) (d : DeploymentPos)
    (nStartTime nTimeout : Int) :
    (((UpdateRegtestBIP9Parameters d nStartTime nTimeout g).regTestParams.consensus.vDeployments
        d).nStartTime = nStartTime ∧
      ((UpdateRegtestBIP9Parameters d nStartTime nTimeout g).regTestParams.consensus.vDeployments
        d).nTimeout = nTimeout ∧
      ((UpdateRegtestBIP9Parameters d nStartTime nTimeout g).regTestParams.consensus.vDeployments
        d).bit = (g.regTestParams.consensus.vDeployments d).bit) ∧
    (∀ e, e ≠ d →
      (UpdateRegtestBIP9Parameters d nStartTime nTimeout g).regTestParams.consensus.vDeployments e
        = g.regTestParams.consensus.vDeployments e) ∧
    (UpdateRegtestBIP9Parameters d nStartTime nTimeout g).regTestParams.consensus =
      { g.regTestParams.consensus with
        vDeployments :=
          (UpdateRegtestBIP9Parameters d nStartTime nTimeout
            g).regTestParams.consensus.vDeployments } ∧
    (UpdateRegtestBIP9Parameters d nStartTime nTimeout g).regTestParams =
      { g.regTestParams with
        consensus := (UpdateRegtestBIP9Parameters d nStartTime nTimeout
          g).regTestParams.consensus } ∧
    ((UpdateRegtestBIP9Parameters d nStartTime nTimeout g).regTestParams.digishieldConsensus =
        g.regTestParams.digishieldConsensus ∧
      (UpdateRegtestBIP9Parameters d nStartTime nTimeout g).regTestParams.auxpowConsensus =
        g.regTestParams.auxpowConsensus ∧
      (UpdateRegtestBIP9Parameters d nStartTime nTimeout g).regTestParams.minDifficultyConsensus =
        g.regTestParams.minDifficultyConsensus ∧
      (UpdateRegtestBIP9Parameters d nStartTime nTimeout g).regTestParams.pConsensusRoot =
        g.regTestParams.pConsensusRoot ∧
      (∀ m, ((UpdateRegtestBIP9Parameters d nStartTime nTimeout g).regTestParams.heap m).pLeft =
          (g.regTestParams.heap m).pLeft ∧
        ((UpdateRegtestBIP9Parameters d nStartTime nTimeout g).regTestParams.heap m).pRight =
          (g.regTestParams.heap m).pRight)) ∧
    ((UpdateRegtestBIP9Parameters d nStartTime nTimeout g).mainParams = g.mainParams ∧
      (UpdateRegtestBIP9Parameters d nStartTime nTimeout g).testNetParams = g.testNetParams ∧
      (UpdateRegtestBIP9Parameters d nStartTime nTimeout g).pCurrentParams = g.pCurrentParams ∧
      (UpdateRegtestBIP9Parameters d nStartTime nTimeout g).base = g.base) := by
  refine ⟨⟨?_, ?_, ?_⟩, fun e he => ?_, rfl, rfl, ⟨rfl, rfl, rfl, rfl, fun m => ?_⟩,
    rfl, rfl, rfl, rfl⟩
  · simp [UpdateRegtestBIP9Parameters, CChainParams.UpdateBIP9Parameters, setStartTime,
      setTimeout]
  · simp [UpdateRegtestBIP9Parameters, CChainParams.UpdateBIP9Parameters, setStartTime,
      setTimeout]
  · simp [UpdateRegtestBIP9Parameters, CChainParams.UpdateBIP9Parameters, setStartTime,
      setTimeout]
  · simp [UpdateRegtestBIP9Parameters, CChainParams.UpdateBIP9Parameters, setStartTime,
      setTimeout, he]
  · cases m <;> exact ⟨rfl, rfl⟩

/-- Raising the budget of a walk that returned does not change what it returns. -/
theorem GetConsensus_fuel_succ {α : Type} (heap : α → Consensus.Params α) :
    ∀ fuel n h x, GetConsensus heap fuel n h = some x →
      GetConsensus heap (fuel + 1) n h = some x := by
  intro fuel
  induction fuel with
  | zero => intro n h x hx; simp [GetConsensus] at hx
  | succ f ih =>
    intro n h x hx
    by_cases hc1 : h < (heap n).nHeightEffective ∧ (heap n).pLeft.isSome
    · obtain ⟨l, hl1⟩ := Option.isSome_iff_exists.mp hc1.2
      rw [GetConsensus_left heap f n l h hc1.1 hl1] at hx
      rw [GetConsensus_left heap (f + 1) n l h hc1.1 hl1]
      exact ih l h x hx
    · by_cases hc2 : h > (heap n).nHeightEffective ∧ (heap n).pRight.isSome
      · obtain ⟨r, hr1⟩ := Option.isSome_iff_exists.mp hc2.2
        rw [GetConsensus_right heap f n r h hc1 hc2.1 hr1] at hx
        rw [GetConsensus_right heap (f + 1) n r h hc1 hc2.1 hr1]
        cases hc : GetConsensus heap f r h with
        | none => simp [hc] at hx
        | some c =>
          rw [ih r h c hc]
          simpa [hc] using hx
      · rw [GetConsensus_self heap f n h hc1 hc2] at hx
        rw [GetConsensus_self heap (f + 1) n h hc1 hc2, hx]

/-- A walk that returned returns the same node under every larger budget. -/
theorem GetConsensus_fuel_le {α : Type} (heap : α → Consensus.Params α) (n : α) (h : Nat)
    (x : α) (f1 : Nat) (hx : GetConsensus heap f1 n h = some x) :
    ∀ f2, f1 ≤ f2 → GetConsensus heap f2 n h = some x := by
  intro f2 hle
  induction hle with
  | refl => exact hx
  | step _ ih => exact GetConsensus_fuel_succ heap _ n h x ih

/-- Two walks from the same node at the same height that return, whatever their budgets,
return the same node. -/
theorem GetConsensus_deterministic {α : Type} (heap : α → Consensus.Params α) (root : α)
    (h f1 f2 : Nat) (x y : α) (hx : GetConsensus heap f1 root h = some x)
    (hy : GetConsensus heap f2 root h = some y) : x = y ∧ heap x = heap y := by
  have hxy : x = y := by
    have h1 := GetConsensus_fuel_le heap root h x f1 hx (max f1 f2) (Nat.le_max_left _ _)
    have h2 := GetConsensus_fuel_le heap root h y f2 hy (max f1 f2) (Nat.le_max_right _ _)
    rw [h1] at h2
    exact Option.some.inj h2
  exact ⟨hxy, by rw [hxy]⟩

/-! ## Which node is in force -/

/-- The node the walk returns is in force at the target height exactly when some node on
the chain of `pLeft` links from the start is; when none is, the walk returns the last
node of that chain. -/
theorem GetConsensus_spine {α : Type} (heap : α → Consensus.Params α) (n : α) (d : Nat)
    (hd : DepthLe heap n d) :
    ∀ fuel h, d ≤ fuel → ∃ x, GetConsensus heap fuel n h = some x ∧
      ((heap x).nHeightEffective ≤ h ↔
        ∃ z, LeftSpine heap n z ∧ (heap z).nHeightEffective ≤ h) ∧
      ((∀ z, LeftSpine heap n z → h < (heap z).nHeightEffective) →
        LeftSpine heap n x ∧ (heap x).pLeft = none) := by
  induction hd with
  | node n d hl hr ihl ihr =>
    intro fuel h hfuel
    obtain ⟨f, rfl⟩ : ∃ k, fuel = k + 1 := ⟨fuel - 1, by omega⟩
    have hf : d ≤ f := by omega
    by_cases hc1 : h < (heap n).nHeightEffective ∧ (heap n).pLeft.isSome
    · obtain ⟨l, hl1⟩ := Option.isSome_iff_exists.mp hc1.2
      obtain ⟨x, hx, hiff, hlast⟩ := ihl l hl1 f h hf
      refine ⟨x, by rw [GetConsensus_left heap f n l h hc1.1 hl1, hx], ⟨fun hle => ?_, ?_⟩,
        fun hall => ?_⟩
      · obtain ⟨z, hz, hzle⟩ := hiff.mp hle
        exact ⟨z, LeftSpine.step n l z hl1 hz, hzle⟩
      · rintro ⟨z, hz, hzle⟩
        cases hz with
        | self => omega
        | step _ l2 _ e hz2 =>
          rw [hl1] at e
          have : l2 = l := (Option.some.inj e).symm
          subst this
          exact hiff.mpr ⟨z, hz2, hzle⟩
      · obtain ⟨hsp, hnone⟩ := hlast (fun z hz => hall z (LeftSpine.step n l z hl1 hz))
        exact ⟨LeftSpine.step n l x hl1 hsp, hnone⟩
    · by_cases hc2 : h > (heap n).nHeightEffective ∧ (heap n).pRight.isSome
      · obtain ⟨r, hr1⟩ := Option.isSome_iff_exists.mp hc2.2
        obtain ⟨c, hc, _, _⟩ := ihr r hr1 f h hf
        have hstep := GetConsensus_right heap f n r h hc1 hc2.1 hr1
        rw [hc] at hstep
        have hn : ∃ z, LeftSpine heap n z ∧ (heap z).nHeightEffective ≤ h :=
          ⟨n, LeftSpine.self n, by omega⟩
        have hall : ¬ ∀ z, LeftSpine heap n z → h < (heap z).nHeightEffective :=
          fun hall => absurd (hall n (LeftSpine.self n)) (by omega)
        by_cases hle : (heap c).nHeightEffective ≤ h
        · exact ⟨c, by rw [hstep]; simp [hle], ⟨fun _ => hn, fun _ => hle⟩,
            fun h0 => absurd h0 hall⟩
        · exact ⟨n, by rw [hstep]; simp [hle], ⟨fun _ => hn, fun _ => by omega⟩,
            fun h0 => absurd h0 hall⟩
      · refine ⟨n, GetConsensus_self heap f n h hc1 hc2, ⟨fun hle => ⟨n, LeftSpine.self n, hle⟩,
          ?_⟩, fun hall => ⟨LeftSpine.self n, ?_⟩⟩
        · rintro ⟨z, hz, hzle⟩
          cases hz with
          | self => exact hzle
          | step _ l _ e _ =>
            by_contra hgt
            exact hc1 ⟨by omega, by simp [e]⟩
        · cases hp : (heap n).pLeft with
          | none => rfl
          | some l => exact absurd ⟨hall n (LeftSpine.self n), by simp [hp]⟩ hc1

/-- C19 (as amended): on a finite acyclic parameter tree, for every root and height `h`,
the node the walk returns has `nHeightEffective <= h` exactly when some node on the chain
of `pLeft` links from the root (the root, its `pLeft`, the `pLeft` of that, ...) has
`nHeightEffective <= h`. When `h` is below all of them, the walk returns the last node of
that chain, which is not yet in force. -/
theorem GetConsensus_in_force_iff {α : Type} (heap : α → Consensus.Params α) (root : α)
    (d fuel h : Nat) (hd : DepthLe heap root d) (hfuel : d ≤ fuel) :
    ∃ x, GetConsensus heap fuel root h = some x ∧
      ((heap x).nHeightEffective ≤ h ↔
        ∃ z, LeftSpine heap root z ∧ (heap z).nHeightEffective ≤ h) ∧
      ((∀ z, LeftSpine heap root z → h < (heap z).nHeightEffective) →
        LeftSpine heap root x ∧ (heap x).pLeft = none) :=
  GetConsensus_spine heap root d hd fuel h hfuel

/-- C19 (as amended), evaluated on the example heap at height 75: the walk from the root
returns a node that is in force, and the `pLeft` child of the root (height 50) is. -/
theorem GetConsensus_in_force_iff_witness :
    ∃ x, GetConsensus exampleHeap 3 0 75 = some x ∧
      ((exampleHeap x).nHeightEffective ≤ 75 ↔
        ∃ z, LeftSpine exampleHeap 0 z ∧ (exampleHeap z).nHeightEffective ≤ 75) ∧
      ((∀ z, LeftSpine exampleHeap 0 z → 75 < (exampleHeap z).nHeightEffective) →
        LeftSpine exampleHeap 0 x ∧ (exampleHeap x).pLeft = none) :=
  GetConsensus_in_force_iff exampleHeap 0 3 3 75 exampleHeap_depth (Nat.le_refl 3)

/-- C19 as stated fails: in the example heap (a finite tree), the walk from the root at
height 0 returns object 1, whose activation height is 50. -/
theorem GetConsensus_in_force_counterexample :
    TreeAt exampleHeap 0 [0, 1, 2, 3] ∧ GetConsensus exampleHeap 4 0 0 = some 1 ∧
      ¬ (exampleHeap 1).nHeightEffective ≤ 0 :=
  ⟨exampleHeap_tree, by decide, by decide⟩

/-- In a tree, the nodes reachable from the root are nodes of the tree. -/
theorem Reach_mem {α : Type} (heap : α → Consensus.Params α) (n : α) (ns : List α)
    (ht : TreeAt heap n ns) : ∀ x, Reach heap n x → x ∈ ns := by
  induction ht with
  | node n L R hl hr hln hrn hnL hnR hLR ihl ihr =>
    intro x hx
    cases hx with
    | self => simp
    | viaLeft _ l _ e hx2 =>
      have := ihl l e x hx2
      simp [this]
    | viaRight _ r _ e hx2 =>
      have := ihr r e x hx2
      simp [this]

/-- C20: a `pRight` branch is authoritative only once its activation height is reached.
On a finite acyclic parameter tree, for every node `n` and height `h`, if the walk from
`n` returns a node of the subtree under `n.pRight`, then that node has
`nHeightEffective <= h`. -/
theorem GetConsensus_later_in_force {α : Type} (heap : α → Consensus.Params α) (n r x : α)
    (ns : List α) (fuel h : Nat) (ht : TreeAt heap n ns)
    (hr1 : (heap n).pRight = some r) (hsub : Reach heap r x)
    (hx : GetConsensus heap fuel n h = some x) : (heap x).nHeightEffective ≤ h := by
  cases ht with
  | node _ L R hl hr hln hrn hnL hnR hLR =>
    have hxR : x ∈ R := Reach_mem heap r R (hr r hr1) x hsub
    cases fuel with
    | zero => simp [GetConsensus] at hx
    | succ f =>
      by_cases hc1 : h < (heap n).nHeightEffective ∧ (heap n).pLeft.isSome
      · obtain ⟨l, hl1⟩ := Option.isSome_iff_exists.mp hc1.2
        rw [GetConsensus_left heap f n l h hc1.1 hl1] at hx
        exact absurd hxR (hLR x (GetConsensus_mem heap l L (hl l hl1) f h x hx))
      · by_cases hc2 : h > (heap n).nHeightEffective ∧ (heap n).pRight.isSome
        · rw [GetConsensus_right heap f n r h hc1 hc2.1 hr1] at hx
          cases hc : GetConsensus heap f r h with
          | none => simp [hc] at hx
          | some c =>
            simp only [hc] at hx
            by_cases hle : (heap c).nHeightEffective ≤ h
            · simp [hle] at hx
              subst hx
              exact hle
            · simp [hle] at hx
              subst hx
              exact absurd hxR hnR
        · rw [GetConsensus_self heap f n h hc1 hc2] at hx
          rw [← Option.some.inj hx] at hxR
          exact absurd hxR hnR

/-- C20, evaluated on the example heap: at height 160 the walk from the root returns
object 3, a node under the root's `pRight` child 2, and its activation height 150 is
reached. -/
theorem GetConsensus_later_in_force_witness : (exampleHeap 3).nHeightEffective ≤ 160 :=
  GetConsensus_later_in_force exampleHeap 0 2 3 [0, 1, 2, 3] 4 160 exampleHeap_tree rfl
    (Reach.viaLeft 2 3 3 rfl (Reach.self 3)) (by decide)

/-! ## The merkle root of the genesis block -/

/-- The stand-in environment computes the merkle root of a one-transaction block as the
digest of that transaction. -/
theorem toy_merkle : MerkleRootIsTxHash Env.toy toyTxHash := by
  intro block tx h
  simp [Env.toy, h]

/-- C21: with the hash function opaque and `BlockMerkleRoot` of a one-transaction block
being the hash of that transaction, the merkle root of the block `CreateGenesisBlock`
returns is the hash of its single transaction; two calls that agree on the message, the
output script and the reward give the same merkle root whatever the timestamps, nonces,
bits and versions are; in particular the genesis blocks of the main, test and regtest
profiles have the same merkle root. -/
theorem genesis_merkle_root (env : Env) (txHash : CMutableTransaction → Nat)
    (hspec : MerkleRootIsTxHash env txHash) (pszTimestamp : String)
    (genesisOutputScript : CScript) (genesisReward : Int)
    (nTime1 nNonce1 nBits1 nTime2 nNonce2 nBits2 : Nat) (nVersion1 nVersion2 : Int) :
    (∃ tx, (CreateGenesisBlock env pszTimestamp genesisOutputScript nTime1 nNonce1 nBits1
          nVersion1 genesisReward).vtx = [tx] ∧
      (CreateGenesisBlock env pszTimestamp genesisOutputScript nTime1 nNonce1 nBits1
          nVersion1 genesisReward).hashMerkleRoot = txHash tx) ∧
    (CreateGenesisBlock env pszTimestamp genesisOutputScript nTime1 nNonce1 nBits1
        nVersion1 genesisReward).hashMerkleRoot =
      (CreateGenesisBlock env pszTimestamp genesisOutputScript nTime2 nNonce2 nBits2
        nVersion2 genesisReward).hashMerkleRoot ∧
    (CMainParams env).genesis.hashMerkleRoot = (CTestNetParams env).genesis.hashMerkleRoot ∧
    (CTestNetParams env).genesis.hashMerkleRoot =
      (CRegTestParams env).genesis.hashMerkleRoot := by
  have root : ∀ (msg : String) (script : CScript) (reward : Int) (t n b : Nat) (v : Int),
      (CreateGenesisBlock env msg script t n b v reward).hashMerkleRoot =
        txHash
          { nVersion := 1
            vin := [{ env.defaultTxIn with
                      scriptSig := [.pushInt 486604799, .pushScriptNum 4, .pushBytes msg] }]
            vout := [{ env.defaultTxOut with nValue := reward, scriptPubKey := script }]
            nLockTime := env.defaultLockTime } := by
    intro msg script reward t n b v
    exact hspec _ _ rfl
  have hm : (CMainParams env).genesis =
      CreateGenesisBlock env Dogecoin.pszTimestamp Dogecoin.genesisOutputScript 1369199888
        11288888 0x1e0ffff0 1 (88 * env.COIN) := rfl
  have ht : (CTestNetParams env).genesis =
      CreateGenesisBlock env Dogecoin.pszTimestamp Dogecoin.genesisOutputScript 1369199888
        12097647 0x1e0ffff0 1 (88 * env.COIN) := rfl
  have hr : (CRegTestParams env).genesis =
      CreateGenesisBlock env Dogecoin.pszTimestamp Dogecoin.genesisOutputScript 1369199888
        12097647 0x1e0ffff0 1 (88 * env.COIN) := rfl
  refine ⟨⟨_, rfl, root _ _ _ _ _ _ _⟩, ?_, ?_, ?_⟩
  · rw [root, root]
  · rw [hm, ht, root, root]
  · rw [ht, hr]

/-- C21, evaluated in the stand-in environment: the genesis blocks of the main and test
profiles, built with different nonces, have the same merkle root. -/
theorem genesis_merkle_root_witness :
    (CMainParams Env.toy).genesis.nNonce ≠ (CTestNetParams Env.toy).genesis.nNonce ∧
    (CMainParams Env.toy).genesis.hashMerkleRoot =
      (CTestNetParams Env.toy).genesis.hashMerkleRoot :=
  ⟨fun e => absurd ((rfl : (CMainParams Env.toy).genesis.nNonce = 11288888).symm.trans
      (e.trans (rfl : (CTestNetParams Env.toy).genesis.nNonce = 12097647))) (by decide),
    (genesis_merkle_root Env.toy toyTxHash toy_merkle "" [] 0 0 0 0 0 0 0 0 0).2.2.1⟩

/-! ## The overlay nodes -/

/-- C22: in each profile the root (alt-difficulty / digishield) node is the base node
`consensus` copied, with overrides only: it has the base node's value in every field
except the target timespan (60), the coinbase maturity (70 on main, 240 on test and
regtest), the simplified-rewards and digishield-difficulty flags (set), the activation
height (the sentinel `0xFFFFFFFF`) and its two links (to the base node and to the
auxpow overlay). -/
theorem digishieldConsensus_is_copy (env : Env) :
    (CMainParams env).digishieldConsensus =
      { (CMainParams env).consensus with
        nPowTargetTimespan := 60, nCoinbaseMaturity := 70, fSimplifiedRewards := true,
        fDigishieldDifficultyCalculation := true, nHeightEffective := 0xFFFFFFFF,
        pLeft := some .consensus, pRight := some .auxpowConsensus } ∧
    (CTestNetParams env).digishieldConsensus =
      { (CTestNetParams env).consensus with
        nPowTargetTimespan := 60, nCoinbaseMaturity := 240, fSimplifiedRewards := true,
        fDigishieldDifficultyCalculation := true, nHeightEffective := 0xFFFFFFFF,
        pLeft := some .consensus, pRight := some .auxpowConsensus } ∧
    (CRegTestParams env).digishieldConsensus =
      { (CRegTestParams env).consensus with
        nPowTargetTimespan := 60, nCoinbaseMaturity := 240, fSimplifiedRewards := true,
        fDigishieldDifficultyCalculation := true, nHeightEffective := 0xFFFFFFFF,
        pLeft := some .consensus, pRight := some .auxpowConsensus } :=
  ⟨rfl, rfl, rfl⟩

/-- C23: the further overlays are inert. In each of the three profiles (the
default-constructed `Consensus::Params` having null links) and for every 32-bit height
`h`, the walk from `pConsensusRoot` returns a node that is neither the minimum-difficulty
overlay nor the auxpow overlay. The minimum-difficulty overlay is not linked into the
tree (no link and no root pointer holds its address); the auxpow overlay is the root's
`pRight`, with the sentinel activation height. -/
theorem further_overlays_inert (env : Env) (hl : env.defaultParams.pLeft = none)
    (hr : env.defaultParams.pRight = none) (fuel h : Nat) (hfuel : 2 ≤ fuel)
    (h32 : h < 2 ^ 32) (p : CChainParams)
    (hp : p = CMainParams env ∨ p = CTestNetParams env ∨ p = CRegTestParams env) :
    (∃ x, GetConsensus p.heap fuel .digishieldConsensus h = some x ∧
      x ≠ .minDifficultyConsensus ∧ x ≠ .auxpowConsensus) ∧
    (p.pConsensusRoot = some .digishieldConsensus ∧
      ∀ m, (p.heap m).pLeft ≠ some .minDifficultyConsensus ∧
        (p.heap m).pRight ≠ some .minDifficultyConsensus) ∧
    ((p.heap .digishieldConsensus).pRight = some .auxpowConsensus ∧
      (p.heap .auxpowConsensus).nHeightEffective = 0xFFFFFFFF ∧
      (p.heap .minDifficultyConsensus).nHeightEffective = 0xFFFFFFFF) := by
  have key : p.pConsensusRoot = some .digishieldConsensus ∧
      (p.heap .digishieldConsensus).nHeightEffective = 0xFFFFFFFF ∧
      (p.heap .digishieldConsensus).pLeft = some .consensus ∧
      (p.heap .digishieldConsensus).pRight = some .auxpowConsensus ∧
      (p.heap .consensus).pLeft = none ∧ (p.heap .consensus).pRight = none ∧
      (p.heap .auxpowConsensus).pLeft = none ∧ (p.heap .auxpowConsensus).pRight = none ∧
      (p.heap .minDifficultyConsensus).pLeft = none ∧
      (p.heap .minDifficultyConsensus).pRight = none ∧
      (p.heap .auxpowConsensus).nHeightEffective = 0xFFFFFFFF ∧
      (p.heap .minDifficultyConsensus).nHeightEffective = 0xFFFFFFFF := by
    rcases hp with rfl | rfl | rfl
    · exact ⟨rfl, rfl, rfl, rfl, hl, hr, hl, hr, hl, hr, rfl, rfl⟩
    · exact ⟨rfl, rfl, rfl, rfl, hl, hr, hl, hr, hl, hr, rfl, rfl⟩
    · exact ⟨rfl, rfl, rfl, rfl, hl, hr, hl, hr, hl, hr, rfl, rfl⟩
  obtain ⟨hroot, hH, hL, hR, hcl, hcr, hal, har, hml, hmr, haH, hmH⟩ := key
  refine ⟨?_, ⟨hroot, fun m => ?_⟩, hR, haH, hmH⟩
  · by_cases hlt : h < 0xFFFFFFFF
    · exact ⟨.consensus,
        GetConsensus_below p.heap .digishieldConsensus .consensus fuel h hL hcl hcr
          (by omega) hfuel, by decide, by decide⟩
    · have he : h = (p.heap .digishieldConsensus).nHeightEffective := by omega
      rw [he]
      exact ⟨.digishieldConsensus,
        GetConsensus_at p.heap .digishieldConsensus fuel (by omega), by decide, by decide⟩
  · cases m
    · rw [hcl, hcr]; exact ⟨Option.noConfusion, Option.noConfusion⟩
    · rw [hL, hR]; exact ⟨by decide, by decide⟩
    · rw [hal, har]; exact ⟨Option.noConfusion, Option.noConfusion⟩
    · rw [hml, hmr]; exact ⟨Option.noConfusion, Option.noConfusion⟩

/-- C23, evaluated on the main profile at the largest 32-bit height. -/
theorem further_overlays_inert_witness :
    ∃ x, GetConsensus (CMainParams Env.zero).heap 2 .digishieldConsensus 0xFFFFFFFF = some x ∧
      x ≠ .minDifficultyConsensus ∧ x ≠ .auxpowConsensus :=
  (further_overlays_inert Env.zero rfl rfl 2 0xFFFFFFFF (Nat.le_refl 2) (by decide)
    (CMainParams Env.zero) (Or.inl rfl)).1

/-! ## Numerical facts of the rule sets -/

/-- C24: in every node of all three profiles the rule-change activation threshold is
9576, exactly 95% of the miner confirmation window 10080; the window is `60 * 24 * 7`
blocks and, at the target spacing of 60 seconds, spans one week (604800 seconds). -/
theorem activation_threshold_window (env : Env) (p : CChainParams)
    (hp : p = CMainParams env ∨ p = CTestNetParams env ∨ p = CRegTestParams env)
    (m : Member) :
    (p.heap m).nRuleChangeActivationThreshold = 9576 ∧
    (p.heap m).nMinerConfirmationWindow = 10080 ∧
    (p.heap m).nPowTargetSpacing = 60 ∧
    (p.heap m).nRuleChangeActivationThreshold * 100 =
      95 * (p.heap m).nMinerConfirmationWindow ∧
    (p.heap m).nMinerConfirmationWindow = 60 * 24 * 7 ∧
    ((p.heap m).nMinerConfirmationWindow : Int) * (p.heap m).nPowTargetSpacing = 604800 ∧
    (604800 : Int) = 7 * 24 * 60 * 60 := by
  have h1 : (p.heap m).nRuleChangeActivationThreshold = 9576 := by
    rcases hp with rfl | rfl | rfl <;> cases m <;> rfl
  have h2 : (p.heap m).nMinerConfirmationWindow = 10080 := by
    rcases hp with rfl | rfl | rfl <;> cases m <;> rfl
  have h3 : (p.heap m).nPowTargetSpacing = 60 := by
    rcases hp with rfl | rfl | rfl <;> cases m <;> rfl
  rw [h1, h2, h3]
  decide

/-- C24, evaluated on the regtest root node. -/
theorem activation_threshold_window_witness :
    ((CRegTestParams Env.zero).heap .digishieldConsensus).nRuleChangeActivationThreshold * 100
      = 95 * ((CRegTestParams Env.zero).heap .digishieldConsensus).nMinerConfirmationWindow :=
  (activation_threshold_window Env.zero (CRegTestParams Env.zero) (Or.inr (Or.inr rfl))
    .digishieldConsensus).2.2.2.1

/-- C25: in every node of all three profiles the proof-of-work limit is the all-ones
256-bit value shifted right by 20 bits, that is `2^236 - 1`. -/
theorem powLimit_value (env : Env) (p : CChainParams)
    (hp : p = CMainParams env ∨ p = CTestNetParams env ∨ p = CRegTestParams env)
    (m : Member) :
    (p.heap m).powLimit = (2 ^ 256 - 1) >>> 20 ∧ (p.heap m).powLimit = 2 ^ 236 - 1 ∧
    (p.heap m).powLimit < 2 ^ 256 := by
  have h1 : (p.heap m).powLimit =
      0x00000fffffffffffffffffffffffffffffffffffffffffffffffffffffffffff := by
    rcases hp with rfl | rfl | rfl <;> cases m <;> rfl
  rw [h1]
  decide

/-- C25, evaluated on the base node of the main profile. -/
theorem powLimit_value_witness :
    ((CMainParams Env.zero).heap .consensus).powLimit = 2 ^ 236 - 1 :=
  (powLimit_value Env.zero (CMainParams Env.zero) (Or.inl rfl) .consensus).2.1

/-! ## Soft-fork deployments -/

/-- The deployment descriptors every node of the main profile holds when constructed. -/
theorem CMainParams_vDeployments (env : Env) (m : Member) (d : DeploymentPos) :
    ((CMainParams env).heap m).vDeployments d =
      match d with
      | .DEPLOYMENT_TESTDUMMY => { bit := 28, nStartTime := 1199145601, nTimeout := 1230767999 }
      | .DEPLOYMENT_BIP34 => { bit := 0, nStartTime := 1534490155, nTimeout := 1764490155 }
      | .DEPLOYMENT_BIP66 => { bit := 1, nStartTime := 1534490155, nTimeout := 1764490155 }
      | .DEPLOYMENT_BIP65 => { bit := 2, nStartTime := 1534490155, nTimeout := 1764490155 }
      | .DEPLOYMENT_CSV => { bit := 3, nStartTime := 1724732207, nTimeout := 1764490155 }
      | .DEPLOYMENT_SEGWIT => { bit := 4, nStartTime := 1724732207, nTimeout := 1764490155 } := by
  cases m <;> cases d <;> rfl

/-- The deployment descriptors every node of the test profile holds when constructed. -/
theorem CTestNetParams_vDeployments (env : Env) (m : Member) (d : DeploymentPos) :
    ((CTestNetParams env).heap m).vDeployments d =
      match d with
      | .DEPLOYMENT_TESTDUMMY => { bit := 28, nStartTime := 1199145601, nTimeout := 1230767999 }
      | .DEPLOYMENT_BIP34 => { bit := 0, nStartTime := 1703462400, nTimeout := 1735084800 }
      | .DEPLOYMENT_BIP66 => { bit := 1, nStartTime := 1703462400, nTimeout := 1735084800 }
      | .DEPLOYMENT_BIP65 => { bit := 2, nStartTime := 1703462400, nTimeout := 1735084800 }
      | .DEPLOYMENT_CSV => { bit := 3, nStartTime := 1703462400, nTimeout := 1735084800 }
      | .DEPLOYMENT_SEGWIT => { bit := 4, nStartTime := 1703462400, nTimeout := 1735084800 } := by
  cases m <;> cases d <;> rfl

/-- The deployment descriptors every node of the regtest profile holds when constructed. -/
theorem CRegTestParams_vDeployments (env : Env) (m : Member) (d : DeploymentPos) :
    ((CRegTestParams env).heap m).vDeployments d =
      match d with
      | .DEPLOYMENT_TESTDUMMY => { bit := 28, nStartTime := 1199145601, nTimeout := 1230767999 }
      | .DEPLOYMENT_BIP34 => { bit := 0, nStartTime := 1703462400, nTimeout := 1735084800 }
      | .DEPLOYMENT_BIP66 => { bit := 1, nStartTime := 1703462400, nTimeout := 1735084800 }
      | .DEPLOYMENT_BIP65 => { bit := 2, nStartTime := 1703462400, nTimeout := 1735084800 }
      | .DEPLOYMENT_CSV => { bit := 3, nStartTime := 1703462400, nTimeout := 1735084800 }
      | .DEPLOYMENT_SEGWIT => { bit := 4, nStartTime := 1703462400, nTimeout := 1735084800 } := by
  cases m <;> cases d <;> rfl

/-- C26: in every node of every profile as constructed, the soft-fork deployment
descriptors are well-formed: each bit position lies in 0..28, the bit positions of the
six deployment kinds (28, 0, 1, 2, 3, 4 for TESTDUMMY, BIP34, BIP66, BIP65, CSV, SEGWIT)
are pairwise distinct, and every start time is strictly less than its timeout. -/
theorem vDeployments_well_formed (env : Env) (p : CChainParams)
    (hp : p = CMainParams env ∨ p = CTestNetParams env ∨ p = CRegTestParams env)
    (m : Member) :
    (∀ d, 0 ≤ ((p.heap m).vDeployments d).bit ∧ ((p.heap m).vDeployments d).bit ≤ 28 ∧
      ((p.heap m).vDeployments d).nStartTime < ((p.heap m).vDeployments d).nTimeout) ∧
    (∀ d e, d ≠ e → ((p.heap m).vDeployments d).bit ≠ ((p.heap m).vDeployments e).bit) ∧
    (((p.heap m).vDeployments .DEPLOYMENT_TESTDUMMY).bit = 28 ∧
      ((p.heap m).vDeployments .DEPLOYMENT_BIP34).bit = 0 ∧
      ((p.heap m).vDeployments .DEPLOYMENT_BIP66).bit = 1 ∧
      ((p.heap m).vDeployments .DEPLOYMENT_BIP65).bit = 2 ∧
      ((p.heap m).vDeployments .DEPLOYMENT_CSV).bit = 3 ∧
      ((p.heap m).vDeployments .DEPLOYMENT_SEGWIT).bit = 4) := by
  rcases hp with rfl | rfl | rfl
  · refine ⟨fun d => ?_, fun d e hne => ?_, ?_⟩
    · rw [CMainParams_vDeployments]; cases d <;> decide
    · rw [CMainParams_vDeployments, CMainParams_vDeployments]
      cases d <;> cases e <;> first | exact absurd rfl hne | decide
    · simp only [CMainParams_vDeployments]; decide
  · refine ⟨fun d => ?_, fun d e hne => ?_, ?_⟩
    · rw [CTestNetParams_vDeployments]; cases d <;> decide
    · rw [CTestNetParams_vDeployments, CTestNetParams_vDeployments]
      cases d <;> cases e <;> first | exact absurd rfl hne | decide
    · simp only [CTestNetParams_vDeployments]; decide
  · refine ⟨fun d => ?_, fun d e hne => ?_, ?_⟩
    · rw [CRegTestParams_vDeployments]; cases d <;> decide
    · rw [CRegTestParams_vDeployments, CRegTestParams_vDeployments]
      cases d <;> cases e <;> first | exact absurd rfl hne | decide
    · simp only [CRegTestParams_vDeployments]; decide

/-- C26, evaluated on the auxpow overlay of the test profile: the CSV deployment starts
before it times out. -/
theorem vDeployments_well_formed_witness :
    (((CTestNetParams Env.zero).heap .auxpowConsensus).vDeployments .DEPLOYMENT_CSV).nStartTime
      < (((CTestNetParams Env.zero).heap .auxpowConsensus).vDeployments
          .DEPLOYMENT_CSV).nTimeout :=
  ((vDeployments_well_formed Env.zero (CTestNetParams Env.zero) (Or.inr (Or.inl rfl))
    .auxpowConsensus).1 .DEPLOYMENT_CSV).2.2

/-! ## The walk as a call on the program state -/

/-- A call of `GetConsensus` hands back the heap it was given, whatever it returns. -/
theorem GetConsensusCall_heap {α : Type} (heap : α → Consensus.Params α) :
    ∀ fuel n h heap1 x, GetConsensusCall heap fuel n h = some (heap1, x) → heap1 = heap := by
  intro fuel
  induction fuel with
  | zero => intro n h heap1 x hx; simp [GetConsensusCall] at hx
  | succ f ih =>
    intro n h heap1 x hx
    rw [GetConsensusCall] at hx
    by_cases hc1 : h < (heap n).nHeightEffective ∧ (heap n).pLeft.isSome
    · rw [dif_pos hc1] at hx
      exact ih _ h heap1 x hx
    · rw [dif_neg hc1] at hx
      by_cases hc2 : h > (heap n).nHeightEffective ∧ (heap n).pRight.isSome
      · rw [dif_pos hc2] at hx
        cases hc : GetConsensusCall heap f ((heap n).pRight.get hc2.2) h with
        | none => simp [hc] at hx
        | some r =>
          obtain ⟨heap2, c⟩ := r
          have h2 : heap2 = heap := ih _ h heap2 c hc
          simp only [hc] at hx
          by_cases hle : (heap2 c).nHeightEffective ≤ h
          · simp [hle] at hx
            rw [← hx.1, h2]
          · simp [hle] at hx
            rw [← hx.1, h2]
      · rw [dif_neg hc2] at hx
        exact ((Prod.mk.inj (Option.some.inj hx)).1).symm

/-- The call returns the pointer `GetConsensus` computes, together with the heap. -/
theorem GetConsensusCall_eq {α : Type} (heap : α → Consensus.Params α) :
    ∀ fuel n h, GetConsensusCall heap fuel n h =
      (GetConsensus heap fuel n h).map (fun x => (heap, x)) := by
  intro fuel
  induction fuel with
  | zero => intro n h; rfl
  | succ f ih =>
    intro n h
    rw [GetConsensusCall, GetConsensus]
    by_cases hc1 : h < (heap n).nHeightEffective ∧ (heap n).pLeft.isSome
    · rw [dif_pos hc1, dif_pos hc1]
      exact ih _ h
    · rw [dif_neg hc1, dif_neg hc1]
      by_cases hc2 : h > (heap n).nHeightEffective ∧ (heap n).pRight.isSome
      · rw [dif_pos hc2, dif_pos hc2, ih]
        cases hc : GetConsensus heap f ((heap n).pRight.get hc2.2) h with
        | none => rfl
        | some c =>
          by_cases hle : (heap c).nHeightEffective ≤ h
          · simp [hle]
          · simp [hle]
      · rw [dif_neg hc2, dif_neg hc2]
        rfl

/-- C18: `GetConsensus` is a pure read. On a finite acyclic parameter tree (depth at most
`d`, recursion budget at least `d`), for every root and height `h`, the call returns a
node `x` and leaves the heap as it was: every node, with all its fields and its two
links, is unchanged. A second call with the same root and height, made in the state the
first call left behind, returns the same node `x`, again leaves every node unchanged, and
the field values of `x` after it are those before the first call. -/
theorem GetConsensus_pure_read {α : Type} (heap : α → Consensus.Params α) (root : α)
    (d fuel h : Nat) (hd : DepthLe heap root d) (hfuel : d ≤ fuel) :
    ∃ heap1 x, GetConsensusCall heap fuel root h = some (heap1, x) ∧
      (∀ a, heap1 a = heap a) ∧
      ∃ heap2, GetConsensusCall heap1 fuel root h = some (heap2, x) ∧
        (∀ a, heap2 a = heap a) ∧ heap2 x = heap x := by
  obtain ⟨x, hx, _⟩ := GetConsensus_returns heap root d hd fuel h hfuel
  have hcall : GetConsensusCall heap fuel root h = some (heap, x) := by
    rw [GetConsensusCall_eq, hx]; rfl
  exact ⟨heap, x, hcall, fun _ => rfl, heap, hcall, fun _ => rfl, rfl⟩

/-- C18, evaluated on the example heap: the call from the root at height 160 returns
object 3 and leaves the heap as it was, and so does the second call. -/
theorem GetConsensus_pure_read_witness :
    ∃ heap1 x, GetConsensusCall exampleHeap 3 0 160 = some (heap1, x) ∧
      (∀ a, heap1 a = exampleHeap a) ∧
      ∃ heap2, GetConsensusCall heap1 3 0 160 = some (heap2, x) ∧
        (∀ a, heap2 a = exampleHeap a) ∧ heap2 x = exampleHeap x :=
  GetConsensus_pure_read exampleHeap 0 3 3 160 exampleHeap_depth (Nat.le_refl 3)

end Dogecoin
